import Mathlib

/-!
# Form filling with custom fonts: `forms/pdf_form_fill_custom_font.go`

A shallow embedding of the example program `pdf_form_fill_custom_font.go`.

The program is sequential glue around an external PDF library.  The embedding
keeps the program's own control flow (`fillFields`, `main`) exactly as written
and treats every library / operating-system call as a call into an environment
`Env`, which decides whether the call succeeds and what it returns.  A run of
the program is its list of external calls (`Run.trace`) together with the way
the run ended (`Run.outcome`).

Go features that matter for the control flow and how they are modelled:

* `x, err := f()` : the call returns `Except Err X`; on failure the pointer `x`
  is `nil`, written `none`.
* `defer h.Close()` : `Run.deferred`, which runs the call when the enclosing
  function returns or panics, and does not run it when the process exits.
* `log.Fatalf` : the event `Fatalf` followed by process exit with status 1.
* a method called on a `nil` font pointer : decided by the library, given by
  `Env.nilFontDescriptor` (`none` is a nil-pointer panic).
-/

namespace FormFill

/-! ## Data model -/

/-- Go `error` values, identified by their description (`err.Error()`). -/
abbrev Err := String

/-- An open `*os.File`, identified by the path it was opened on. -/
abbrev File := String

/-- The value `fjson.LoadFromJSONFile` returns: field name to value. -/
abbrev FieldData := List (String × String)

/-- A loaded `*model.PdfFont`: where it was loaded from and the font name its
descriptor reports (`FontDescriptor().FontName.String()`); a font that loaded
has a descriptor. -/
structure PdfFont where
  source : String
  fontName : String
deriving DecidableEq, Repr

/-- The struct `annotator.AppearanceFont`.  `Font` is a pointer and may be nil.
`Size` is only ever given the literal `0` by the program. -/
structure AppearanceFont where
  Font : Option PdfFont
  Name : String
  Size : Nat
deriving DecidableEq, Repr

/-- The struct `annotator.AppearanceFontStyle`; the Go map `FieldFallbacks` is the
association list of the map literal. -/
structure AppearanceFontStyle where
  Fallback : AppearanceFont
  FieldFallbacks : List (String × AppearanceFont)
  ForceReplace : Bool
deriving DecidableEq, Repr

/-- The struct `annotator.AppearanceStyle`, restricted to the one member the
program assigns (`Fonts`, a pointer). -/
structure AppearanceStyle where
  Fonts : Option AppearanceFontStyle
deriving DecidableEq, Repr

/-- The struct `annotator.FieldAppearance`: the two public flags of the struct
literal and the style installed by `SetStyle`. -/
structure FieldAppearance where
  OnlyIfMissing : Bool
  RegenerateTextFields : Bool
  style : Option AppearanceStyle
deriving DecidableEq, Repr

/-- Modelled from the spec: an appearance stream or a block of static page
content (section 3): the font resource it references and the text it draws.
The library type is not part of this repository. -/
structure Appearance where
  fontName : String
  text : String
deriving DecidableEq, Repr

/-- Modelled from the spec: a page annotation (section 3): a widget of the named
field, with its appearance stream if it has one, or some other annotation. -/
inductive Annot where
  | widget (field : String) (ap : Option Appearance)
  | other (label : String)
deriving DecidableEq, Repr

/-- Modelled from the spec: a page (section 3): static content and a list of
annotations. -/
structure PdfPage where
  content : List Appearance
  annots : List Annot
deriving DecidableEq, Repr

/-- Modelled from the spec: a form field (section 3): its full name and current
value. -/
structure PdfField where
  name : String
  value : String
deriving DecidableEq, Repr

/-- The members of `*model.PdfReader` the program touches: `AcroForm` (nil when
the document has no form) and `PageList`. -/
structure PdfReader where
  AcroForm : Option (List PdfField)
  PageList : List PdfPage
deriving DecidableEq, Repr

/-- Modelled from the spec: the state of a `*model.PdfWriter`: its form and the
pages added so far. -/
structure PdfWriter where
  forms : Option (List PdfField)
  pages : List PdfPage
deriving DecidableEq, Repr

/-! ## Runs -/

/-- The external calls the program makes, with their arguments.  The two calls
that mutate the reader in place also record the reader as it is after a
successful call (`none` when the call failed). -/
inductive Call where
  | LoadFromJSONFile (jsonPath : String)
  | Open (path : String)
  | NewPdfReader (f : File)
  | NewStandard14Font (name : String)
  | NewPdfFontFromTTFFile (path : String)
  | NewCompositePdfFontFromTTFFile (path : String)
  | Fatalf (msg : String)
  | FontDescriptor (font : Option PdfFont)
  | Style
  | SetStyle (style : AppearanceStyle)
  | FillWithAppearance (fdata : FieldData) (fa : FieldAppearance) (after : Option PdfReader)
  | FlattenFields (flag : Bool) (fa : FieldAppearance) (after : Option PdfReader)
  | NewPdfWriter
  | SetForms (form : Option (List PdfField))
  | AddPage (p : PdfPage)
  | Create (path : String)
  | SubsetRegistered (font : PdfFont)
  | Write (w : PdfWriter) (f : File)
  | Close (f : File)
  | Printf (text : String)
  | Exit (code : Nat)
deriving DecidableEq, Repr

/-- The kind of a call, without its arguments. -/
inductive Kind where
  | LoadFromJSONFile | Open | NewPdfReader | NewStandard14Font | NewPdfFontFromTTFFile
  | NewCompositePdfFontFromTTFFile | Fatalf | FontDescriptor | Style | SetStyle
  | FillWithAppearance | FlattenFields | NewPdfWriter | SetForms | AddPage | Create
  | SubsetRegistered | Write | Close | Printf | Exit
deriving DecidableEq, Repr

/-- The kind of a call. -/
def Call.kind : Call → Kind
  | .LoadFromJSONFile _ => .LoadFromJSONFile
  | .Open _ => .Open
  | .NewPdfReader _ => .NewPdfReader
  | .NewStandard14Font _ => .NewStandard14Font
  | .NewPdfFontFromTTFFile _ => .NewPdfFontFromTTFFile
  | .NewCompositePdfFontFromTTFFile _ => .NewCompositePdfFontFromTTFFile
  | .Fatalf _ => .Fatalf
  | .FontDescriptor _ => .FontDescriptor
  | .Style => .Style
  | .SetStyle _ => .SetStyle
  | .FillWithAppearance _ _ _ => .FillWithAppearance
  | .FlattenFields _ _ _ => .FlattenFields
  | .NewPdfWriter => .NewPdfWriter
  | .SetForms _ => .SetForms
  | .AddPage _ => .AddPage
  | .Create _ => .Create
  | .SubsetRegistered _ => .SubsetRegistered
  | .Write _ _ => .Write
  | .Close _ => .Close
  | .Printf _ => .Printf
  | .Exit _ => .Exit

/-- One external call and the error it returned (`none` is success). -/
structure Event where
  call : Call
  err : Option Err
deriving DecidableEq, Repr

/-- The kind of the call of an event. -/
def Event.kind (ev : Event) : Kind := ev.call.kind

/-- How a run ends: the function returns (with its `error` result), the process
exits (`os.Exit`, also from inside `log.Fatalf`), or a runtime panic unwinds. -/
inductive Outcome where
  | returned (err : Option Err)
  | exited (code : Nat)
  | panicked
deriving DecidableEq, Repr

/-- A run: the external calls in the order they were made, and the outcome. -/
structure Run where
  trace : List Event
  outcome : Outcome
deriving DecidableEq, Repr

/-- Sequencing: the calls `pre` were made, then the run `r` follows. -/
def Run.after (pre : List Event) (r : Run) : Run :=
  ⟨pre ++ r.trace, r.outcome⟩

/-- A deferred call `ev` registered before the run `r`: Go runs deferred calls
when the function returns and while a panic unwinds; `os.Exit` ends the process
at once and deferred calls do not run. -/
def Run.deferred (ev : Event) (r : Run) : Run :=
  match r.outcome with
  | .exited _ => r
  | _ => ⟨r.trace ++ [ev], r.outcome⟩

/-! ## The environment: the library and the operating system -/

/-- The results of the external calls, as functions of their arguments.  A run
makes every call whose result the program uses at most once with given
arguments (the writer grows from one `AddPage` call to the next), so a result
that depends on the arguments covers a result that depends on the history. -/
structure Env where
  LoadFromJSONFile : String → Except Err FieldData
  Open : String → Except Err File
  NewPdfReader : File → Except Err PdfReader
  NewStandard14Font : String → Except Err PdfFont
  NewPdfFontFromTTFFile : String → Except Err PdfFont
  NewCompositePdfFontFromTTFFile : String → Except Err PdfFont
  /-- What `FontDescriptor().FontName.String()` yields on a nil font pointer:
  `none` is a nil-pointer panic. -/
  nilFontDescriptor : Option String
  FillWithAppearance : PdfReader → FieldData → FieldAppearance → Option Err
  FlattenFields : PdfReader → Bool → FieldAppearance → Option Err
  SetForms : Option (List PdfField) → Option Err
  AddPage : PdfWriter → PdfPage → Option Err
  Create : String → Except Err File
  SubsetRegistered : PdfFont → Option Err
  Write : PdfWriter → File → Option Err
  Close : File → Option Err

/-- Modelled from the spec: the library constant `model.HelveticaObliqueName`, the
name of the standard Helvetica-Oblique font. -/
def HelveticaObliqueName : String := "Helvetica-Oblique"

/-- The pointer a Go constructor returns next to its error: nil on failure. -/
def ptr {α : Type} : Except Err α → Option α
  | .ok a => some a
  | .error _ => none

/-- The error a Go constructor returns next to its value. -/
def errOf {α : Type} : Except Err α → Option Err
  | .ok _ => none
  | .error e => some e

/-- The value of `font.FontDescriptor().FontName.String()`; `none` is a panic. -/
def Env.fontName (env : Env) : Option PdfFont → Option String
  | some f => some f.fontName
  | none => env.nilFontDescriptor

/-! ## The library operations the program relies on -/

/-- Modelled from the spec: the font resolution rule of the external library's
appearance generator (section 4.2, step 2): the `FieldFallbacks` entry keyed by
the field's full name if there is one, otherwise `Fallback`. -/
def AppearanceFontStyle.resolve (s : AppearanceFontStyle) (name : String) : AppearanceFont :=
  match s.FieldFallbacks.lookup name with
  | some f => f
  | none => s.Fallback

/-- Modelled from the spec: the font a field appearance resolves for a field
name, by the resolution rule on its font style; `none` when the appearance has
no font style. -/
def FieldAppearance.resolve (fa : FieldAppearance) (name : String) : Option AppearanceFont :=
  match fa.style with
  | some ⟨some fonts⟩ => some (fonts.resolve name)
  | _ => none

/-- Modelled from the spec: step 1 of `Fill` on one field (section 4.2): the new
value if the field data has one for the field's name, the existing value
otherwise.  The library function `FillWithAppearance` is not part of this
repository. -/
def fillValue (fdata : FieldData) (f : PdfField) : PdfField :=
  match fdata.lookup f.name with
  | some v => { f with value := v }
  | none => f

/-- The current value of the named field in a form (empty if there is none). -/
def fieldValue (form : List PdfField) (name : String) : String :=
  match form.find? (fun f => f.name == name) with
  | some f => f.value
  | none => ""

/-- Modelled from the spec: steps 1 to 3 of `Fill` on one annotation (section
4.2), given the form as it is after the values were set.  A widget whose field
has no new value is skipped unless regeneration is forced; a widget that has an
appearance is skipped when `OnlyIfMissing` is set and regeneration is not
forced; otherwise the widget gets an appearance that draws the field's value in
the resolved font.  Without a font style there is no font to resolve and the
widget is left as it is. -/
def fillWidget (fdata : FieldData) (fa : FieldAppearance) (form : List PdfField) :
    Annot → Annot
  | .widget name ap =>
    match fa.style.bind (fun st => st.Fonts) with
    | none => .widget name ap
    | some fonts =>
      let force := fa.RegenerateTextFields || fonts.ForceReplace
      if (fdata.lookup name).isNone && !force then .widget name ap
      else if ap.isSome && fa.OnlyIfMissing && !force then .widget name ap
      else .widget name (some ⟨(fonts.resolve name).Name, fieldValue form name⟩)
  | .other label => .other label

/-- Modelled from the spec: `Fill(document, fieldValues, style)` of section 4.2,
the library call `pdfReader.AcroForm.FillWithAppearance(fdata, fieldAppearance)`
when it succeeds.  A document without a form is left unchanged. -/
def PdfReader.FillWithAppearance (rd : PdfReader) (fdata : FieldData)
    (fa : FieldAppearance) : PdfReader :=
  match rd.AcroForm with
  | none => rd
  | some form =>
    let form1 := form.map (fillValue fdata)
    { AcroForm := some form1,
      PageList := rd.PageList.map (fun p =>
        { p with annots := p.annots.map (fillWidget fdata fa form1) }) }

/-- Whether the annotation is a widget. -/
def Annot.isWidget : Annot → Bool
  | .widget _ _ => true
  | .other _ => false

/-- The appearance stream of a widget, if the annotation is a widget with one. -/
def Annot.appearance : Annot → Option Appearance
  | .widget _ ap => ap
  | .other _ => none

/-- Modelled from the spec: `Flatten` on one page (section 4.3): the appearance
of every widget is merged into the page's static content and the widget
annotations are removed. -/
def flattenPage (p : PdfPage) : PdfPage :=
  { content := p.content ++ p.annots.filterMap Annot.appearance,
    annots := p.annots.filter (fun a => !a.isWidget) }

/-- Modelled from the spec: `Flatten(document, style)` of section 4.3, the
library call `pdfReader.FlattenFields(true, fieldAppearance)` when it succeeds:
every page is flattened, every field is removed from the form and the form,
now empty, is removed from the document.  The spec gives the boolean argument
and the style no role in flattening. -/
def PdfReader.FlattenFields (rd : PdfReader) (_flag : Bool) (_fa : FieldAppearance) :
    PdfReader :=
  { AcroForm := none, PageList := rd.PageList.map flattenPage }

/-- Modelled from the spec: `fieldAppearance.Style()`: the style that was set,
or the library's default style, which has no font style. -/
def FieldAppearance.Style (fa : FieldAppearance) : AppearanceStyle :=
  match fa.style with
  | some st => st
  | none => ⟨none⟩

/-- Modelled from the spec: `fieldAppearance.SetStyle(style)`. -/
def FieldAppearance.SetStyle (fa : FieldAppearance) (st : AppearanceStyle) : FieldAppearance :=
  { fa with style := some st }

/-- Modelled from the spec: `model.NewPdfWriter()`: no form, no pages. -/
def NewPdfWriter : PdfWriter := ⟨none, []⟩

/-- Modelled from the spec: `pdfWriter.SetForms(form)` when it succeeds. -/
def PdfWriter.SetForms (w : PdfWriter) (form : Option (List PdfField)) : PdfWriter :=
  { w with forms := form }

/-- Modelled from the spec: `pdfWriter.AddPage(p)` when it succeeds: the page
becomes the writer's last page. -/
def PdfWriter.AddPage (w : PdfWriter) (p : PdfPage) : PdfWriter :=
  { w with pages := w.pages ++ [p] }

/-! ## The program -/

/-- Lines 150-155 of `fillFields`: the loop `for _, p := range pdfReader.PageList`,
which adds each page to the writer and returns the error of the first `AddPage`
that fails. -/
def addPages (env : Env) : PdfWriter → List PdfPage → List Event × Except Err PdfWriter
  | w, [] => ([], .ok w)
  | w, p :: ps =>
    match env.AddPage w p with
    | some e => ([⟨.AddPage p, some e⟩], .error e)
    | none =>
      let r := addPages env (w.AddPage p) ps
      (⟨.AddPage p, none⟩ :: r.1, r.2)

/-- Lines 146-168 of `fillFields`: write out. -/
def fillFields_write (env : Env) (pdfReader : PdfReader) (cjkFont : PdfFont)
    (outputPath : String) : Run :=
  let pdfWriter := NewPdfWriter
  let setErr := env.SetForms none
  let pdfWriter := match setErr with
    | none => pdfWriter.SetForms none
    | some _ => pdfWriter
  Run.after [⟨.NewPdfWriter, none⟩, ⟨.SetForms none, setErr⟩] <|
  match addPages env pdfWriter pdfReader.PageList with
  | (t, .error e) => ⟨t, .returned (some e)⟩
  | (t, .ok pdfWriter) =>
    Run.after t <|
    match env.Create outputPath with
    | .error e => ⟨[⟨.Create outputPath, some e⟩], .returned (some e)⟩
    | .ok fout =>
      Run.after [⟨.Create outputPath, none⟩] <|
      Run.deferred ⟨.Close fout, env.Close fout⟩ <|
      let err := env.Write pdfWriter fout
      ⟨[⟨.SubsetRegistered cjkFont, env.SubsetRegistered cjkFont⟩,
        ⟨.Write pdfWriter fout, err⟩], .returned err⟩

/-- Lines 134-144 of `fillFields`: populate the form data and flatten the form. -/
def fillFields_fill (env : Env) (fdata : FieldData) (pdfReader : PdfReader)
    (fieldAppearance : FieldAppearance) (cjkFont : PdfFont) (outputPath : String) : Run :=
  match env.FillWithAppearance pdfReader fdata fieldAppearance with
  | some e => ⟨[⟨.FillWithAppearance fdata fieldAppearance none, some e⟩], .returned (some e)⟩
  | none =>
    let pdfReader := pdfReader.FillWithAppearance fdata fieldAppearance
    Run.after [⟨.FillWithAppearance fdata fieldAppearance (some pdfReader), none⟩] <|
    match env.FlattenFields pdfReader true fieldAppearance with
    | some e => ⟨[⟨.FlattenFields true fieldAppearance none, some e⟩], .returned (some e)⟩
    | none =>
      let pdfReader := pdfReader.FlattenFields true fieldAppearance
      Run.after [⟨.FlattenFields true fieldAppearance (some pdfReader), none⟩] <|
      fillFields_write env pdfReader cjkFont outputPath

/-- The font style of lines 91-130, from the three font pointers and the names
their descriptors report. -/
def fontStyle (defaultFontReplacement fontReplacement : Option PdfFont) (cjkFont : PdfFont)
    (defaultName replacementName : String) : AppearanceFontStyle :=
  { Fallback := ⟨defaultFontReplacement, defaultName, 0⟩,
    FieldFallbacks := [
      ("email4", ⟨fontReplacement, replacementName, 0⟩),
      ("address5[addr_line1]", ⟨some cjkFont, cjkFont.fontName, 0⟩),
      ("address5[addr_line2]", ⟨some cjkFont, cjkFont.fontName, 0⟩),
      ("address5[city]", ⟨some cjkFont, cjkFont.fontName, 0⟩),
      ("address5[state]", ⟨some cjkFont, cjkFont.fontName, 0⟩),
      ("address5[postal]", ⟨some cjkFont, cjkFont.fontName, 0⟩)],
    ForceReplace := true }

/-- The descriptor reads and library calls of lines 90-132 when none of them
panics: `Style()`, the font name of each of the seven `AppearanceFont` entries in
the order of the composite literal, and `SetStyle(style)`. -/
def styleEvents (defaultFontReplacement fontReplacement : Option PdfFont) (cjkFont : PdfFont)
    (style : AppearanceStyle) : List Event :=
  [⟨.Style, none⟩, ⟨.FontDescriptor defaultFontReplacement, none⟩,
    ⟨.FontDescriptor fontReplacement, none⟩,
    ⟨.FontDescriptor (some cjkFont), none⟩, ⟨.FontDescriptor (some cjkFont), none⟩,
    ⟨.FontDescriptor (some cjkFont), none⟩, ⟨.FontDescriptor (some cjkFont), none⟩,
    ⟨.FontDescriptor (some cjkFont), none⟩, ⟨.SetStyle style, none⟩]

/-- Lines 88-132 of `fillFields`: build the appearance style.  The descriptor of
each font is read in the order of the composite literal; reading the descriptor
of a nil font may panic. -/
def fillFields_style (env : Env) (fdata : FieldData) (pdfReader : PdfReader)
    (fieldAppearance : FieldAppearance) (defaultFontReplacement fontReplacement : Option PdfFont)
    (cjkFont : PdfFont) (outputPath : String) : Run :=
  let style := fieldAppearance.Style
  match env.fontName defaultFontReplacement with
  | none => ⟨[⟨.Style, none⟩, ⟨.FontDescriptor defaultFontReplacement, none⟩], .panicked⟩
  | some defaultName =>
    match env.fontName fontReplacement with
    | none =>
      ⟨[⟨.Style, none⟩, ⟨.FontDescriptor defaultFontReplacement, none⟩,
        ⟨.FontDescriptor fontReplacement, none⟩], .panicked⟩
    | some replacementName =>
      let fonts :=
        fontStyle defaultFontReplacement fontReplacement cjkFont defaultName replacementName
      let style := { style with Fonts := some fonts }
      let fieldAppearance := fieldAppearance.SetStyle style
      Run.after (styleEvents defaultFontReplacement fontReplacement cjkFont style) <|
      fillFields_fill env fdata pdfReader fieldAppearance cjkFont outputPath

/-- The field appearance of line 72. -/
def initialAppearance : FieldAppearance :=
  { OnlyIfMissing := true, RegenerateTextFields := true, style := none }

/-- The three font loads of lines 75-82, each with the error it returned. -/
def fontLoads (env : Env) : List Event :=
  [⟨.NewStandard14Font HelveticaObliqueName, errOf (env.NewStandard14Font HelveticaObliqueName)⟩,
    ⟨.NewPdfFontFromTTFFile "./DoHyeon-Regular.ttf",
      errOf (env.NewPdfFontFromTTFFile "./DoHyeon-Regular.ttf")⟩,
    ⟨.NewCompositePdfFontFromTTFFile "./rounded-mplus-1p-regular.ttf",
      errOf (env.NewCompositePdfFontFromTTFFile "./rounded-mplus-1p-regular.ttf")⟩]

/-- Lines 71-86 of `fillFields`: load the three fonts.  Each load assigns `err`
again, so the check of line 84 sees the error of the last load only. -/
def fillFields_fonts (env : Env) (fdata : FieldData) (pdfReader : PdfReader)
    (outputPath : String) : Run :=
  let fieldAppearance := initialAppearance
  let defaultFontReplacement := ptr (env.NewStandard14Font HelveticaObliqueName)
  let fontReplacement := ptr (env.NewPdfFontFromTTFFile "./DoHyeon-Regular.ttf")
  Run.after (fontLoads env) <|
  match env.NewCompositePdfFontFromTTFFile "./rounded-mplus-1p-regular.ttf" with
  | .error e => ⟨[⟨.Fatalf ("Error " ++ e), none⟩], .exited 1⟩
  | .ok cjkFont =>
    fillFields_style env fdata pdfReader fieldAppearance defaultFontReplacement
      fontReplacement cjkFont outputPath

/-- The function `fillFields(inputPath, jsonPath, outputPath)`, lines 54-169. -/
def fillFields (env : Env) (inputPath jsonPath outputPath : String) : Run :=
  match env.LoadFromJSONFile jsonPath with
  | .error e => ⟨[⟨.LoadFromJSONFile jsonPath, some e⟩], .returned (some e)⟩
  | .ok fdata =>
    Run.after [⟨.LoadFromJSONFile jsonPath, none⟩] <|
    match env.Open inputPath with
    | .error e => ⟨[⟨.Open inputPath, some e⟩], .returned (some e)⟩
    | .ok f =>
      Run.after [⟨.Open inputPath, none⟩] <|
      Run.deferred ⟨.Close f, env.Close f⟩ <|
      match env.NewPdfReader f with
      | .error e => ⟨[⟨.NewPdfReader f, some e⟩], .returned (some e)⟩
      | .ok pdfReader =>
        Run.after [⟨.NewPdfReader f, none⟩] <|
        fillFields_fonts env fdata pdfReader outputPath

/-- The function `main`, lines 37-49.  A run of `fillFields` that does not
return (process exit or panic) ends `main` as well. -/
def main (env : Env) : Run :=
  let inputPdf := "sample_form.pdf"
  let fillJSONFile := "formdata.json"
  let outputFile := "output.pdf"
  let r := fillFields env inputPdf fillJSONFile outputFile
  match r.outcome with
  | .returned (some err) =>
    ⟨r.trace ++ [⟨.Printf ("Error: " ++ err ++ "\n"), none⟩, ⟨.Exit 1, none⟩], .exited 1⟩
  | .returned none =>
    ⟨r.trace ++ [⟨.Printf ("Success, output written to " ++ outputFile ++ "\n"), none⟩],
      .returned none⟩
  | o => ⟨r.trace, o⟩

/-! ## Sample environments -/

/-- A document with a form of three fields on two pages. -/
def sampleReader : PdfReader :=
  { AcroForm := some [⟨"name1", ""⟩, ⟨"email4", "old"⟩, ⟨"address5[city]", ""⟩],
    PageList := [
      ⟨[], [.widget "name1" none, .widget "email4" none, .other "link"]⟩,
      ⟨[⟨"F1", "static"⟩], [.widget "address5[city]" none]⟩] }

/-- An environment in which every call succeeds. -/
def envOK : Env :=
  { LoadFromJSONFile := fun _ => .ok [("email4", "a@b.com"), ("address5[city]", "c")],
    Open := fun p => .ok p,
    NewPdfReader := fun _ => .ok sampleReader,
    NewStandard14Font := fun n => .ok ⟨n, n⟩,
    NewPdfFontFromTTFFile := fun p => .ok ⟨p, "DoHyeon"⟩,
    NewCompositePdfFontFromTTFFile := fun p => .ok ⟨p, "MPlus"⟩,
    nilFontDescriptor := none,
    FillWithAppearance := fun _ _ _ => none,
    FlattenFields := fun _ _ _ => none,
    SetForms := fun _ => none,
    AddPage := fun _ _ => none,
    Create := fun p => .ok p,
    SubsetRegistered := fun _ => none,
    Write := fun _ _ => none,
    Close := fun _ => none }

/-- An environment in which adding the second page fails. -/
def envBadPage : Env :=
  { envOK with AddPage := fun w _ => if w.pages.length = 1 then some "bad page" else none }

/-- An environment in which `./DoHyeon-Regular.ttf` cannot be loaded and the
library panics on a nil font. -/
def envNoTTF : Env :=
  { envOK with NewPdfFontFromTTFFile := fun _ => .error "open ./DoHyeon-Regular.ttf: no such file" }

/-- An environment in which `./DoHyeon-Regular.ttf` cannot be loaded and the
library reports an empty font name for a nil font. -/
def envNoTTFLenient : Env :=
  { envNoTTF with nilFontDescriptor := some "" }

/-- An environment in which `./rounded-mplus-1p-regular.ttf` cannot be loaded. -/
def envNoCJK : Env :=
  { envOK with
    NewCompositePdfFontFromTTFFile :=
      fun _ => .error "open ./rounded-mplus-1p-regular.ttf: no such file" }

/-! ## Names for parts of a run -/

/-- The default font pointer of line 75. -/
def Env.defaultFont (env : Env) : Option PdfFont :=
  ptr (env.NewStandard14Font HelveticaObliqueName)

/-- The replacement font pointer of line 78. -/
def Env.replacementFont (env : Env) : Option PdfFont :=
  ptr (env.NewPdfFontFromTTFFile "./DoHyeon-Regular.ttf")

/-- The appearance style of line 132, given its font style. -/
def styleOf (fonts : AppearanceFontStyle) : AppearanceStyle := ⟨some fonts⟩

/-- The field appearance after line 132, given its font style. -/
def appearanceOf (fonts : AppearanceFontStyle) : FieldAppearance :=
  ⟨true, true, some (styleOf fonts)⟩

/-- The calls of a run up to the point where the style is set (lines 55-132),
when none of them ends the run. -/
def headEvents (env : Env) (i j : String) (f : File) (c : PdfFont)
    (fonts : AppearanceFontStyle) : List Event :=
  [⟨.LoadFromJSONFile j, none⟩, ⟨.Open i, none⟩, ⟨.NewPdfReader f, none⟩] ++ fontLoads env
    ++ styleEvents env.defaultFont env.replacementFont c (styleOf fonts)

/-- The calls of a run up to the point where the page loop starts (lines 55-148),
when none of them ends the run; `rd1` is the reader after the fill, `rd2` after
flattening. -/
def loopHead (env : Env) (i j : String) (f : File) (c : PdfFont)
    (fonts : AppearanceFontStyle) (fd : FieldData) (rd1 rd2 : PdfReader) : List Event :=
  headEvents env i j f c fonts ++
    [⟨.FillWithAppearance fd (appearanceOf fonts) (some rd1), none⟩,
      ⟨.FlattenFields true (appearanceOf fonts) (some rd2), none⟩,
      ⟨.NewPdfWriter, none⟩, ⟨.SetForms none, env.SetForms none⟩]

/-- A successful `AddPage` event. -/
def addOk (p : PdfPage) : Event := ⟨.AddPage p, none⟩

/-! ## Properties of traces -/

/-- The kinds of the calls of a trace, in order. -/
def kinds (t : List Event) : List Kind :=
  t.map Event.kind

/-- The stages whose errors `fillFields` hands back to its caller. -/
def Kind.isStage : Kind → Bool
  | .LoadFromJSONFile | .Open | .NewPdfReader | .FillWithAppearance | .FlattenFields
  | .AddPage | .Create | .Write => true
  | _ => false

/-- The stage calls of a trace, in order. -/
def stageEvents (t : List Event) : List Event :=
  t.filter (fun ev => ev.kind.isStage)

/-- The error of the first stage call of the trace that failed. -/
def firstError (t : List Event) : Option Err :=
  (stageEvents t).findSome? (fun ev => ev.err)

/-- The kind of a call and the error it returned. -/
def Event.sig (ev : Event) : Kind × Option Err := (ev.kind, ev.err)

/-- The stage calls of a run in which every stage is invoked and succeeds, with
`n` pages added. -/
def fullStages (n : Nat) : List (Kind × Option Err) :=
  [(.LoadFromJSONFile, none), (.Open, none), (.NewPdfReader, none),
    (.FillWithAppearance, none), (.FlattenFields, none)]
  ++ List.replicate n (.AddPage, none) ++ [(.Create, none), (.Write, none)]

/-- The place of a stage in the pipeline `LoadFromJSONFile`, `FillWithAppearance`,
`FlattenFields`, `AddPage`, `SubsetRegistered`, `Write` (0 for a call that is not
one of these stages). -/
def Kind.position : Kind → Nat
  | .LoadFromJSONFile => 0
  | .FillWithAppearance => 1
  | .FlattenFields => 2
  | .AddPage => 3
  | .SubsetRegistered => 4
  | .Write => 5
  | _ => 0

/-- The six library stages of the pipeline. -/
def Kind.isPipeline : Kind → Bool
  | .LoadFromJSONFile | .FillWithAppearance | .FlattenFields | .AddPage | .SubsetRegistered
  | .Write => true
  | _ => false

/-- The pipeline stages a trace invokes, in order. -/
def pipeline (t : List Event) : List Kind :=
  (kinds t).filter Kind.isPipeline

/-- The pipeline stages of a complete run that adds `n` pages. -/
def fullPipeline (n : Nat) : List Kind :=
  [.LoadFromJSONFile, .FillWithAppearance, .FlattenFields] ++ List.replicate n .AddPage
    ++ [.SubsetRegistered, .Write]

/-- The stages that come before the output file is created. -/
def Kind.beforeCreate : Kind → Bool
  | .LoadFromJSONFile | .Open | .NewPdfReader | .FillWithAppearance | .FlattenFields
  | .AddPage => true
  | _ => false

/-- The calls of a trace to a stage that comes before `os.Create` which failed. -/
def failedBeforeCreate (t : List Event) : List Event :=
  t.filter (fun ev => ev.kind.beforeCreate && ev.err.isSome)

/-- The `AddPage` calls of a trace, in order. -/
def addPageEvents (t : List Event) : List Event :=
  t.filter (fun ev => ev.kind == .AddPage)

/-- The calls of kind `k` of a trace, in order. -/
def callsOfKind (k : Kind) (t : List Event) : List Call :=
  (t.filter (fun ev => ev.kind == k)).map (fun ev => ev.call)

/-! ## Auxiliary facts about runs -/

theorem addPages_spec (env : Env) (ps : List PdfPage) (w : PdfWriter) :
    (∃ w1, addPages env w ps = (ps.map addOk, .ok w1) ∧ w1 = { w with pages := w.pages ++ ps })
    ∨ (∃ pre p post e, ps = pre ++ p :: post ∧
        addPages env w ps = (pre.map addOk ++ [⟨.AddPage p, some e⟩], .error e)) := by
  induction ps generalizing w with
  | nil => left; exact ⟨w, by simp [addPages]⟩
  | cons p ps ih =>
    cases h : env.AddPage w p with
    | some e =>
      right
      exact ⟨[], p, ps, e, by simp, by simp [addPages, h]⟩
    | none =>
      rcases ih (w.AddPage p) with ⟨w1, h1, h2⟩ | ⟨pre, q, post, e, h1, h2⟩
      · left
        exact ⟨w1, by simp [addPages, h, h1, addOk], by simp [h2, PdfWriter.AddPage]⟩
      · right
        exact ⟨p :: pre, q, post, e, by simp [h1], by simp [addPages, h, h2, addOk]⟩

/-- The writer as it is when the page loop starts: a new writer after `SetForms(nil)`. -/
theorem writer_start (o : Option Err) :
    (match o with
      | none => NewPdfWriter.SetForms none
      | some _ => NewPdfWriter) = ⟨none, []⟩ := by
  cases o <;> rfl

/-- The three ways the write-out phase (lines 146-168) can go. -/
theorem fillFields_write_shape (env : Env) (rd : PdfReader) (c : PdfFont) (o : String) :
    let hd : List Event := [⟨.NewPdfWriter, none⟩, ⟨.SetForms none, env.SetForms none⟩]
    (∃ pre p post e, rd.PageList = pre ++ p :: post ∧
        fillFields_write env rd c o =
          ⟨hd ++ (pre.map addOk ++ [⟨.AddPage p, some e⟩]), .returned (some e)⟩)
    ∨ (∃ e, env.Create o = .error e ∧ fillFields_write env rd c o =
          ⟨hd ++ (rd.PageList.map addOk ++ [⟨.Create o, some e⟩]), .returned (some e)⟩)
    ∨ (∃ fout, env.Create o = .ok fout ∧ fillFields_write env rd c o =
          ⟨hd ++ (rd.PageList.map addOk ++ [⟨.Create o, none⟩,
              ⟨.SubsetRegistered c, env.SubsetRegistered c⟩,
              ⟨.Write ⟨none, rd.PageList⟩ fout, env.Write ⟨none, rd.PageList⟩ fout⟩,
              ⟨.Close fout, env.Close fout⟩]),
            .returned (env.Write ⟨none, rd.PageList⟩ fout)⟩) := by
  intro hd
  unfold fillFields_write
  simp only [writer_start]
  rcases addPages_spec env rd.PageList ⟨none, []⟩ with ⟨w1, h1, h2⟩ | ⟨pre, p, post, e, h1, h2⟩
  · right
    simp only [h1]
    cases hc : env.Create o with
    | error e => left; exact ⟨e, rfl, by simp [Run.after, hd]⟩
    | ok fout =>
      right
      refine ⟨fout, rfl, ?_⟩
      subst h2
      simp [Run.after, Run.deferred, hd]
  · left
    exact ⟨pre, p, post, e, h1, by simp [h2, Run.after, hd]⟩

/-- Every run of `fillFields` has one of eleven forms. -/
theorem fillFields_cases (env : Env) (i j o : String) :
    (∃ e, env.LoadFromJSONFile j = .error e ∧ fillFields env i j o =
        ⟨[⟨.LoadFromJSONFile j, some e⟩], .returned (some e)⟩)
    ∨ ∃ fd, env.LoadFromJSONFile j = .ok fd ∧ (
    (∃ e, env.Open i = .error e ∧ fillFields env i j o =
        ⟨[⟨.LoadFromJSONFile j, none⟩, ⟨.Open i, some e⟩], .returned (some e)⟩)
    ∨ ∃ f, env.Open i = .ok f ∧ (
    (∃ e, env.NewPdfReader f = .error e ∧ fillFields env i j o =
        ⟨[⟨.LoadFromJSONFile j, none⟩, ⟨.Open i, none⟩, ⟨.NewPdfReader f, some e⟩,
          ⟨.Close f, env.Close f⟩], .returned (some e)⟩)
    ∨ ∃ rd, env.NewPdfReader f = .ok rd ∧ (
    (∃ e, env.NewCompositePdfFontFromTTFFile "./rounded-mplus-1p-regular.ttf" = .error e ∧
      fillFields env i j o =
        ⟨[⟨.LoadFromJSONFile j, none⟩, ⟨.Open i, none⟩, ⟨.NewPdfReader f, none⟩] ++ fontLoads env
          ++ [⟨.Fatalf ("Error " ++ e), none⟩], .exited 1⟩)
    ∨ ∃ c, env.NewCompositePdfFontFromTTFFile "./rounded-mplus-1p-regular.ttf" = .ok c ∧ (
    (env.fontName env.defaultFont = none ∧ fillFields env i j o =
        ⟨[⟨.LoadFromJSONFile j, none⟩, ⟨.Open i, none⟩, ⟨.NewPdfReader f, none⟩] ++ fontLoads env
          ++ [⟨.Style, none⟩, ⟨.FontDescriptor env.defaultFont, none⟩, ⟨.Close f, env.Close f⟩],
          .panicked⟩)
    ∨ ∃ dn, env.fontName env.defaultFont = some dn ∧ (
    (env.fontName env.replacementFont = none ∧ fillFields env i j o =
        ⟨[⟨.LoadFromJSONFile j, none⟩, ⟨.Open i, none⟩, ⟨.NewPdfReader f, none⟩] ++ fontLoads env
          ++ [⟨.Style, none⟩, ⟨.FontDescriptor env.defaultFont, none⟩,
            ⟨.FontDescriptor env.replacementFont, none⟩, ⟨.Close f, env.Close f⟩], .panicked⟩)
    ∨ ∃ rn, env.fontName env.replacementFont = some rn ∧
      ∃ fonts, fonts = fontStyle env.defaultFont env.replacementFont c dn rn ∧ (
    (∃ e, fillFields env i j o =
        ⟨headEvents env i j f c fonts ++
          [⟨.FillWithAppearance fd (appearanceOf fonts) none, some e⟩, ⟨.Close f, env.Close f⟩],
          .returned (some e)⟩)
    ∨ ∃ rd1, rd1 = rd.FillWithAppearance fd (appearanceOf fonts) ∧ (
    (∃ e, fillFields env i j o =
        ⟨headEvents env i j f c fonts ++
          [⟨.FillWithAppearance fd (appearanceOf fonts) (some rd1), none⟩,
            ⟨.FlattenFields true (appearanceOf fonts) none, some e⟩, ⟨.Close f, env.Close f⟩],
          .returned (some e)⟩)
    ∨ ∃ rd2, rd2 = rd1.FlattenFields true (appearanceOf fonts) ∧ (
    (∃ pre p post e, rd2.PageList = pre ++ p :: post ∧ fillFields env i j o =
        ⟨loopHead env i j f c fonts fd rd1 rd2 ++ pre.map addOk ++
          [⟨.AddPage p, some e⟩, ⟨.Close f, env.Close f⟩], .returned (some e)⟩)
    ∨ (∃ e, env.Create o = .error e ∧ fillFields env i j o =
        ⟨loopHead env i j f c fonts fd rd1 rd2 ++ rd2.PageList.map addOk ++
          [⟨.Create o, some e⟩, ⟨.Close f, env.Close f⟩], .returned (some e)⟩)
    ∨ (∃ fout, env.Create o = .ok fout ∧ fillFields env i j o =
        ⟨loopHead env i j f c fonts fd rd1 rd2 ++ rd2.PageList.map addOk ++
          [⟨.Create o, none⟩, ⟨.SubsetRegistered c, env.SubsetRegistered c⟩,
            ⟨.Write ⟨none, rd2.PageList⟩ fout, env.Write ⟨none, rd2.PageList⟩ fout⟩,
            ⟨.Close fout, env.Close fout⟩, ⟨.Close f, env.Close f⟩],
          .returned (env.Write ⟨none, rd2.PageList⟩ fout)⟩))))))))) := by
  unfold fillFields
  cases hl : env.LoadFromJSONFile j with
  | error e => left; exact ⟨e, rfl, rfl⟩
  | ok fd =>
    right; refine ⟨fd, rfl, ?_⟩
    dsimp only
    cases ho : env.Open i with
    | error e => left; exact ⟨e, rfl, rfl⟩
    | ok f =>
      right; refine ⟨f, rfl, ?_⟩
      dsimp only
      cases hr : env.NewPdfReader f with
      | error e => left; exact ⟨e, rfl, rfl⟩
      | ok rd =>
        right; refine ⟨rd, rfl, ?_⟩
        dsimp only [fillFields_fonts]
        cases hc : env.NewCompositePdfFontFromTTFFile "./rounded-mplus-1p-regular.ttf" with
        | error e => left; exact ⟨e, rfl, rfl⟩
        | ok c =>
          right; refine ⟨c, rfl, ?_⟩
          dsimp only [fillFields_style]
          unfold Env.defaultFont Env.replacementFont
          cases hd : env.fontName (ptr (env.NewStandard14Font HelveticaObliqueName)) with
          | none => left; exact ⟨rfl, rfl⟩
          | some dn =>
            right; refine ⟨dn, rfl, ?_⟩
            dsimp only
            cases hrn : env.fontName (ptr (env.NewPdfFontFromTTFFile "./DoHyeon-Regular.ttf")) with
            | none => left; exact ⟨rfl, rfl⟩
            | some rn =>
              right; refine ⟨rn, rfl, _, rfl, ?_⟩
              dsimp only [fillFields_fill]
              have hfa : ∀ fonts, initialAppearance.SetStyle { Fonts := some fonts }
                  = appearanceOf fonts := fun _ => rfl
              simp only [hfa]
              generalize fontStyle (ptr (env.NewStandard14Font HelveticaObliqueName))
                (ptr (env.NewPdfFontFromTTFFile "./DoHyeon-Regular.ttf")) c dn rn = fonts
              cases hf : env.FillWithAppearance rd fd (appearanceOf fonts) with
              | some e => left; exact ⟨e, rfl⟩
              | none =>
                right; refine ⟨_, rfl, ?_⟩
                dsimp only
                cases hfl : env.FlattenFields (rd.FillWithAppearance fd (appearanceOf fonts)) true
                    (appearanceOf fonts) with
                | some e => left; exact ⟨e, rfl⟩
                | none =>
                  right; refine ⟨_, rfl, ?_⟩
                  dsimp only
                  rcases fillFields_write_shape env ((rd.FillWithAppearance fd
                      (appearanceOf fonts)).FlattenFields true (appearanceOf fonts)) c o with
                    ⟨pre, p, post, e, h1, h2⟩ | ⟨e, h1, h2⟩ | ⟨fout, h1, h2⟩
                  · left
                    refine ⟨pre, p, post, e, h1, ?_⟩
                    rw [h2]
                    simp [Run.after, Run.deferred, loopHead, headEvents, styleOf,
                      Env.defaultFont, Env.replacementFont]
                  · right; left
                    refine ⟨e, h1, ?_⟩
                    rw [h2]
                    simp [Run.after, Run.deferred, loopHead, headEvents, styleOf,
                      Env.defaultFont, Env.replacementFont]
                  · right; right
                    refine ⟨fout, h1, ?_⟩
                    rw [h2]
                    simp [Run.after, Run.deferred, loopHead, headEvents, styleOf,
                      Env.defaultFont, Env.replacementFont]

theorem kinds_nil : kinds [] = [] := rfl

theorem kinds_cons (c : Call) (e : Option Err) (t : List Event) :
    kinds (⟨c, e⟩ :: t) = c.kind :: kinds t := rfl

theorem kinds_append (a b : List Event) : kinds (a ++ b) = kinds a ++ kinds b := by
  simp [kinds]

theorem kinds_addOk (ps : List PdfPage) :
    kinds (ps.map addOk) = List.replicate ps.length Kind.AddPage := by
  induction ps with
  | nil => rfl
  | cons p ps ih =>
    simp only [List.map_cons, List.length_cons, List.replicate_succ]
    rw [← ih]
    rfl

theorem kind_mem_kinds (t : List Event) (ev : Event) (h : ev ∈ t) : ev.kind ∈ kinds t :=
  List.mem_map_of_mem _ h

theorem stageEvents_addOk (ps : List PdfPage) : stageEvents (ps.map addOk) = ps.map addOk := by
  induction ps with
  | nil => rfl
  | cons p ps ih =>
    simp only [stageEvents] at ih
    simp [stageEvents, addOk, Event.kind, Call.kind, Kind.isStage, ih]

theorem stageEvents_append (a b : List Event) :
    stageEvents (a ++ b) = stageEvents a ++ stageEvents b := by
  simp [stageEvents]

theorem stageEvents_kinds (t : List Event) :
    (stageEvents t).map Event.kind = (kinds t).filter Kind.isStage := by
  induction t with
  | nil => rfl
  | cons a t ih =>
    simp only [stageEvents, kinds, List.filter_cons, List.map_cons] at ih ⊢
    split <;> simp [ih]

theorem sig_addOk (ps : List PdfPage) :
    (ps.map addOk).map Event.sig = List.replicate ps.length (Kind.AddPage, none) := by
  induction ps with
  | nil => rfl
  | cons p ps ih => simp [List.replicate_succ, ih, addOk, Event.sig, Event.kind, Call.kind]

theorem err_addOk (ps : List PdfPage) : ∀ x ∈ ps.map addOk, x.err = none := by
  intro x hx
  simp only [List.mem_map] at hx
  obtain ⟨p, -, rfl⟩ := hx
  rfl

theorem failedBeforeCreate_append (a b : List Event) :
    failedBeforeCreate (a ++ b) = failedBeforeCreate a ++ failedBeforeCreate b := by
  simp [failedBeforeCreate]

theorem failedBeforeCreate_cons (c : Call) (e : Option Err) (t : List Event) :
    failedBeforeCreate (⟨c, e⟩ :: t)
      = if c.kind.beforeCreate && e.isSome then ⟨c, e⟩ :: failedBeforeCreate t
        else failedBeforeCreate t := by
  simp [failedBeforeCreate, List.filter_cons, Event.kind]

theorem failedBeforeCreate_addOk (ps : List PdfPage) :
    failedBeforeCreate (ps.map addOk) = [] := by
  induction ps with
  | nil => rfl
  | cons p ps ih =>
    simp only [List.map_cons, addOk, failedBeforeCreate_cons] at ih ⊢
    simpa using ih

theorem addPageEvents_append (a b : List Event) :
    addPageEvents (a ++ b) = addPageEvents a ++ addPageEvents b := by
  simp [addPageEvents]

theorem addPageEvents_cons (c : Call) (e : Option Err) (t : List Event) :
    addPageEvents (⟨c, e⟩ :: t)
      = if c.kind == .AddPage then ⟨c, e⟩ :: addPageEvents t else addPageEvents t := by
  simp [addPageEvents, List.filter_cons, Event.kind]

theorem addPageEvents_addOk (ps : List PdfPage) : addPageEvents (ps.map addOk) = ps.map addOk := by
  induction ps with
  | nil => rfl
  | cons p ps ih =>
    simp only [List.map_cons, addOk, addPageEvents_cons] at ih ⊢
    simp [ih, Call.kind]

theorem callsOfKind_append (k : Kind) (a b : List Event) :
    callsOfKind k (a ++ b) = callsOfKind k a ++ callsOfKind k b := by
  simp [callsOfKind]

theorem callsOfKind_cons (k : Kind) (c : Call) (e : Option Err) (t : List Event) :
    callsOfKind k (⟨c, e⟩ :: t)
      = if c.kind == k then c :: callsOfKind k t else callsOfKind k t := by
  simp only [callsOfKind, List.filter_cons, Event.kind]
  split <;> simp

theorem callsOfKind_nil (k : Kind) : callsOfKind k [] = [] := rfl

theorem callsOfKind_addOk (k : Kind) (hk : k ≠ .AddPage) (ps : List PdfPage) :
    callsOfKind k (ps.map addOk) = [] := by
  induction ps with
  | nil => rfl
  | cons p ps ih =>
    simp only [List.map_cons, addOk, callsOfKind_cons] at ih ⊢
    simp [Call.kind, ih, Ne.symm hk]

/-- A trace with a single call of kind `k` splits at that call in one way only. -/
theorem split_unique (k : Kind) (A B : List Event) (x : Event) (hA : k ∉ kinds A)
    (hB : k ∉ kinds B) :
    ∀ pre ev post, A ++ x :: B = pre ++ ev :: post → ev.kind = k →
      pre = A ∧ ev = x ∧ post = B := by
  induction A with
  | nil =>
    intro pre ev post h hev
    cases pre with
    | nil =>
      simp at h
      exact ⟨rfl, h.1.symm, h.2.symm⟩
    | cons y pre =>
      simp at h
      exact absurd (hev ▸ kind_mem_kinds B ev (by rw [h.2]; simp)) hB
  | cons a A ih =>
    intro pre ev post h hev
    cases pre with
    | nil =>
      simp at h
      exact absurd (hev ▸ h.1 ▸ kind_mem_kinds (a :: A) a (by simp)) hA
    | cons y pre =>
      simp at h
      obtain ⟨h1, h2, h3⟩ :=
        ih (fun hk => hA (by simp [kinds] at hk ⊢; exact Or.inr hk)) pre ev post h.2 hev
      exact ⟨by rw [h.1, h1], h2, h3⟩

/-- Every `FillWithAppearance` call of a run is made on the reader that was
opened, with the data that was loaded and the appearance built from the fonts. -/
theorem fill_event (env : Env) (i j o : String) (fd : FieldData) (fa : FieldAppearance)
    (after : Option PdfReader) (err : Option Err)
    (h : ⟨.FillWithAppearance fd fa after, err⟩ ∈ (fillFields env i j o).trace) :
    env.LoadFromJSONFile j = .ok fd ∧
    ∃ f rd c dn rn, env.Open i = .ok f ∧ env.NewPdfReader f = .ok rd ∧
      env.NewCompositePdfFontFromTTFFile "./rounded-mplus-1p-regular.ttf" = .ok c ∧
      env.fontName env.defaultFont = some dn ∧ env.fontName env.replacementFont = some rn ∧
      fa = appearanceOf (fontStyle env.defaultFont env.replacementFont c dn rn) ∧
      (after = none ∨ after = some (rd.FillWithAppearance fd fa)) := by
  rcases fillFields_cases env i j o with
    ⟨e, -, h'⟩ | ⟨fd', hfd, ⟨e, -, h'⟩ | ⟨f, hf, ⟨e, -, h'⟩ | ⟨rd, hrd, ⟨e, he, h'⟩ | ⟨c, hc,
      ⟨hn, h'⟩ | ⟨dn, hdn, ⟨hn, h'⟩ | ⟨rn, hrn, fonts, hfonts, ⟨e, h'⟩ | ⟨rd1, hrd1, ⟨e, h'⟩ |
        ⟨rd2, -, ⟨pre, p, post, e, -, h'⟩ | ⟨e, -, h'⟩ | ⟨fout, -, h'⟩⟩⟩⟩⟩⟩⟩⟩⟩
  all_goals rw [h'] at h
  all_goals simp [headEvents, loopHead, fontLoads, styleEvents, addOk] at h
  all_goals subst hfonts
  · obtain ⟨⟨rfl, rfl, rfl⟩, -⟩ := h
    exact ⟨hfd, f, rd, c, dn, rn, hf, hrd, hc, hdn, hrn, rfl, Or.inl rfl⟩
  · obtain ⟨⟨rfl, rfl, rfl⟩, -⟩ := h
    exact ⟨hfd, f, rd, c, dn, rn, hf, hrd, hc, hdn, hrn, rfl, Or.inr (by rw [hrd1])⟩
  · obtain ⟨⟨rfl, rfl, rfl⟩, -⟩ := h
    exact ⟨hfd, f, rd, c, dn, rn, hf, hrd, hc, hdn, hrn, rfl, Or.inr (by rw [hrd1])⟩
  · obtain ⟨⟨rfl, rfl, rfl⟩, -⟩ := h
    exact ⟨hfd, f, rd, c, dn, rn, hf, hrd, hc, hdn, hrn, rfl, Or.inr (by rw [hrd1])⟩
  · obtain ⟨⟨rfl, rfl, rfl⟩, -⟩ := h
    exact ⟨hfd, f, rd, c, dn, rn, hf, hrd, hc, hdn, hrn, rfl, Or.inr (by rw [hrd1])⟩

/-- The run of the sample environment calls `FillWithAppearance` once, with the
loaded data and the appearance built from the three fonts. -/
theorem envOK_fill_event :
    (⟨.FillWithAppearance [("email4", "a@b.com"), ("address5[city]", "c")]
      (appearanceOf (fontStyle envOK.defaultFont envOK.replacementFont
        ⟨"./rounded-mplus-1p-regular.ttf", "MPlus"⟩ "Helvetica-Oblique" "DoHyeon"))
      (some (sampleReader.FillWithAppearance [("email4", "a@b.com"), ("address5[city]", "c")]
        (appearanceOf (fontStyle envOK.defaultFont envOK.replacementFont
          ⟨"./rounded-mplus-1p-regular.ttf", "MPlus"⟩ "Helvetica-Oblique" "DoHyeon")))),
      none⟩ : Event) ∈ (fillFields envOK "sample_form.pdf" "formdata.json" "output.pdf").trace := by
  decide

theorem resolve_fontStyle (d r : Option PdfFont) (c : PdfFont) (dn rn : String) :
    (appearanceOf (fontStyle d r c dn rn)).resolve "email4" = some ⟨r, rn, 0⟩ ∧
    (appearanceOf (fontStyle d r c dn rn)).resolve "address5[addr_line1]"
      = some ⟨some c, c.fontName, 0⟩ ∧
    (appearanceOf (fontStyle d r c dn rn)).resolve "address5[addr_line2]"
      = some ⟨some c, c.fontName, 0⟩ ∧
    (appearanceOf (fontStyle d r c dn rn)).resolve "address5[city]"
      = some ⟨some c, c.fontName, 0⟩ ∧
    (appearanceOf (fontStyle d r c dn rn)).resolve "address5[state]"
      = some ⟨some c, c.fontName, 0⟩ ∧
    (appearanceOf (fontStyle d r c dn rn)).resolve "address5[postal]"
      = some ⟨some c, c.fontName, 0⟩ := by
  refine ⟨rfl, rfl, rfl, rfl, rfl, rfl⟩

theorem resolve_fontStyle_other (d r : Option PdfFont) (c : PdfFont) (dn rn name : String)
    (h : name ∉ ["email4", "address5[addr_line1]", "address5[addr_line2]", "address5[city]",
      "address5[state]", "address5[postal]"]) :
    (appearanceOf (fontStyle d r c dn rn)).resolve name = some ⟨d, dn, 0⟩ := by
  simp only [List.mem_cons, List.mem_singleton, List.not_mem_nil, or_false, not_or] at h
  obtain ⟨h1, h2, h3, h4, h5, h6⟩ := h
  have e1 : (name == "email4") = false := beq_eq_false_iff_ne.mpr h1
  have e2 : (name == "address5[addr_line1]") = false := beq_eq_false_iff_ne.mpr h2
  have e3 : (name == "address5[addr_line2]") = false := beq_eq_false_iff_ne.mpr h3
  have e4 : (name == "address5[city]") = false := beq_eq_false_iff_ne.mpr h4
  have e5 : (name == "address5[state]") = false := beq_eq_false_iff_ne.mpr h5
  have e6 : (name == "address5[postal]") = false := beq_eq_false_iff_ne.mpr h6
  simp [FieldAppearance.resolve, appearanceOf, styleOf, AppearanceFontStyle.resolve, fontStyle,
    List.lookup, e1, e2, e3, e4, e5, e6]

theorem resolve_fontStyle_size (d r : Option PdfFont) (c : PdfFont) (dn rn name : String) :
    ∃ af, (appearanceOf (fontStyle d r c dn rn)).resolve name = some af ∧ af.Size = 0 := by
  by_cases h : name ∈ ["email4", "address5[addr_line1]", "address5[addr_line2]",
      "address5[city]", "address5[state]", "address5[postal]"]
  · simp only [List.mem_cons, List.mem_singleton, List.not_mem_nil, or_false] at h
    rcases h with rfl | rfl | rfl | rfl | rfl | rfl
    · exact ⟨_, (resolve_fontStyle d r c dn rn).1, rfl⟩
    · exact ⟨_, (resolve_fontStyle d r c dn rn).2.1, rfl⟩
    · exact ⟨_, (resolve_fontStyle d r c dn rn).2.2.1, rfl⟩
    · exact ⟨_, (resolve_fontStyle d r c dn rn).2.2.2.1, rfl⟩
    · exact ⟨_, (resolve_fontStyle d r c dn rn).2.2.2.2.1, rfl⟩
    · exact ⟨_, (resolve_fontStyle d r c dn rn).2.2.2.2.2, rfl⟩
  · exact ⟨_, resolve_fontStyle_other d r c dn rn name h, rfl⟩

/-! ## Font loading and file handles -/

/-- C1, the code at the failing input: when `./DoHyeon-Regular.ttf` fails to load
and the composite font loads, the error is overwritten and never checked: the
nil font is used to build the style.  If the library panics on a nil font the
run ends in that panic, not in the font-load error; if it does not,
`FillWithAppearance` is invoked with a nil font for `email4` and `fillFields`
returns nil. -/
theorem failed_font_is_used :
    ((⟨.NewPdfFontFromTTFFile "./DoHyeon-Regular.ttf",
        some "open ./DoHyeon-Regular.ttf: no such file"⟩ : Event)
        ∈ (fillFields envNoTTF "sample_form.pdf" "formdata.json" "output.pdf").trace ∧
      (⟨.FontDescriptor none, none⟩ : Event)
        ∈ (fillFields envNoTTF "sample_form.pdf" "formdata.json" "output.pdf").trace ∧
      Kind.Fatalf ∉ kinds (fillFields envNoTTF "sample_form.pdf" "formdata.json" "output.pdf").trace ∧
      (fillFields envNoTTF "sample_form.pdf" "formdata.json" "output.pdf").outcome = .panicked) ∧
    ((⟨.NewPdfFontFromTTFFile "./DoHyeon-Regular.ttf",
        some "open ./DoHyeon-Regular.ttf: no such file"⟩ : Event)
        ∈ (fillFields envNoTTFLenient "sample_form.pdf" "formdata.json" "output.pdf").trace ∧
      Kind.FillWithAppearance
        ∈ kinds (fillFields envNoTTFLenient "sample_form.pdf" "formdata.json" "output.pdf").trace ∧
      (∀ fd fa after err, (⟨.FillWithAppearance fd fa after, err⟩ : Event)
          ∈ (fillFields envNoTTFLenient "sample_form.pdf" "formdata.json" "output.pdf").trace →
        fa.resolve "email4" = some ⟨none, "", 0⟩) ∧
      (fillFields envNoTTFLenient "sample_form.pdf" "formdata.json" "output.pdf").outcome
        = .returned none) := by
  refine ⟨⟨by decide, by decide, by decide, rfl⟩, by decide, by decide, ?_, rfl⟩
  intro fd fa after err h
  obtain ⟨-, f, rd, c, dn, rn, -, -, -, -, hrn, rfl, -⟩ :=
    fill_event envNoTTFLenient _ _ _ fd fa after err h
  cases hrn
  exact (resolve_fontStyle _ _ c dn _).1

/-- C2, the code at the failing input: when `./rounded-mplus-1p-regular.ttf`
fails to load, the input file has been opened, `log.Fatalf` ends the process
with status 1 and no `Close` call is made. -/
theorem fatalf_skips_close :
    (⟨.Open "sample_form.pdf", none⟩ : Event)
      ∈ (fillFields envNoCJK "sample_form.pdf" "formdata.json" "output.pdf").trace ∧
    (⟨.Fatalf "Error open ./rounded-mplus-1p-regular.ttf: no such file", none⟩ : Event)
      ∈ (fillFields envNoCJK "sample_form.pdf" "formdata.json" "output.pdf").trace ∧
    Kind.Close ∉ kinds (fillFields envNoCJK "sample_form.pdf" "formdata.json" "output.pdf").trace ∧
    (fillFields envNoCJK "sample_form.pdf" "formdata.json" "output.pdf").outcome = .exited 1 := by
  refine ⟨by decide, by decide, by decide, rfl⟩

/-- On every path that does not end in a process exit the files are closed: the
input file if it was opened, and the output file if it was created. -/
theorem closed_unless_exit (env : Env) (i j o : String)
    (h : ∀ code, (fillFields env i j o).outcome ≠ .exited code) :
    (∀ f, env.Open i = .ok f → Kind.Open ∈ kinds (fillFields env i j o).trace →
      Call.Close f ∈ callsOfKind .Close (fillFields env i j o).trace) ∧
    (∀ f, env.Create o = .ok f → Kind.Create ∈ kinds (fillFields env i j o).trace →
      Call.Close f ∈ callsOfKind .Close (fillFields env i j o).trace) := by
  rcases fillFields_cases env i j o with
    ⟨e, -, h'⟩ | ⟨fd, -, ⟨e, ho, h'⟩ | ⟨f, ho, ⟨e, -, h'⟩ | ⟨rd, -, ⟨e, he, h'⟩ | ⟨c, -,
      ⟨hn, h'⟩ | ⟨dn, -, ⟨hn, h'⟩ | ⟨rn, -, fonts, -, ⟨e, h'⟩ | ⟨rd1, -, ⟨e, h'⟩ | ⟨rd2, hrd2,
        ⟨pre, p, post, e, -, h'⟩ | ⟨e, hcr, h'⟩ | ⟨fout, hcr, h'⟩⟩⟩⟩⟩⟩⟩⟩⟩
  all_goals rw [h'] at h ⊢
  all_goals simp at h ⊢
  all_goals simp [headEvents, loopHead, fontLoads, styleEvents, callsOfKind_append,
    callsOfKind_cons, callsOfKind_addOk, callsOfKind_nil, Call.kind, kinds_append, kinds_cons,
    kinds_nil, kinds_addOk]
  all_goals simp_all

/-! ## Fail-fast propagation -/

theorem firstError_shape (oks : List Event) (l : Event) (t : List Event)
    (ht : stageEvents t = oks ++ [l]) (hok : ∀ x ∈ oks, x.err = none) :
    firstError t = l.err := by
  unfold firstError
  rw [ht]
  clear ht
  induction oks with
  | nil => cases h : l.err <;> simp [List.findSome?, h]
  | cons a oks ih =>
    have ha : a.err = none := hok a (by simp)
    simp only [List.cons_append, List.findSome?, ha]
    exact ih (fun x hx => hok x (by simp [hx]))

theorem fail_is_last (oks : List Event) (l : Event) (hok : ∀ x ∈ oks, x.err = none) :
    ∀ pre ev post, oks ++ [l] = pre ++ ev :: post → ev.err ≠ none → post = [] := by
  induction oks with
  | nil =>
    intro pre ev post h _
    cases pre with
    | nil => simp at h; exact h.2
    | cons a pre => simp at h
  | cons a oks ih =>
    intro pre ev post h hev
    cases pre with
    | nil =>
      simp at h
      exact absurd (h.1 ▸ hok a (by simp)) hev
    | cons b pre =>
      simp at h
      exact ih (fun x hx => hok x (by simp [hx])) pre ev post h.2 hev

theorem fillFields_stage_shape (env : Env) (i j o : String) (d r c : PdfFont)
    (h1 : env.NewStandard14Font HelveticaObliqueName = .ok d)
    (h2 : env.NewPdfFontFromTTFFile "./DoHyeon-Regular.ttf" = .ok r)
    (h3 : env.NewCompositePdfFontFromTTFFile "./rounded-mplus-1p-regular.ttf" = .ok c) :
    ∃ oks l, stageEvents (fillFields env i j o).trace = oks ++ [l] ∧
      (∀ x ∈ oks, x.err = none) ∧
      (fillFields env i j o).outcome = .returned l.err ∧
      (l.err = none → ∃ n, (oks ++ [l]).map Event.sig = fullStages n) := by
  have hd : env.fontName env.defaultFont = some d.fontName := by
    simp [Env.defaultFont, h1, ptr, Env.fontName]
  have hr : env.fontName env.replacementFont = some r.fontName := by
    simp [Env.replacementFont, h2, ptr, Env.fontName]
  rcases fillFields_cases env i j o with
    ⟨e, -, h⟩ | ⟨fd, -, ⟨e, -, h⟩ | ⟨f, -, ⟨e, -, h⟩ | ⟨rd, -, ⟨e, he, h⟩ | ⟨c, -,
      ⟨hn, h⟩ | ⟨dn, -, ⟨hn, h⟩ | ⟨rn, -, fonts, -, ⟨e, h⟩ | ⟨rd1, -, ⟨e, h⟩ | ⟨rd2, -,
        ⟨pre, p, post, e, -, h⟩ | ⟨e, -, h⟩ | ⟨fout, -, h⟩⟩⟩⟩⟩⟩⟩⟩⟩
  · exact ⟨[], ⟨.LoadFromJSONFile j, some e⟩, by
      simp [h, stageEvents, Event.kind, Call.kind, Kind.isStage]⟩
  · exact ⟨[⟨.LoadFromJSONFile j, none⟩], ⟨.Open i, some e⟩, by
      simp [h, stageEvents, Event.kind, Call.kind, Kind.isStage]⟩
  · exact ⟨[⟨.LoadFromJSONFile j, none⟩, ⟨.Open i, none⟩], ⟨.NewPdfReader f, some e⟩, by
      simp [h, stageEvents, Event.kind, Call.kind, Kind.isStage]⟩
  · rw [h3] at he; cases he
  · rw [hd] at hn; cases hn
  · rw [hr] at hn; cases hn
  · exact ⟨[⟨.LoadFromJSONFile j, none⟩, ⟨.Open i, none⟩, ⟨.NewPdfReader f, none⟩],
      ⟨.FillWithAppearance fd (appearanceOf fonts) none, some e⟩, by
      simp [h, stageEvents, Event.kind, Call.kind, Kind.isStage, headEvents, fontLoads,
        styleEvents]⟩
  · exact ⟨[⟨.LoadFromJSONFile j, none⟩, ⟨.Open i, none⟩, ⟨.NewPdfReader f, none⟩,
        ⟨.FillWithAppearance fd (appearanceOf fonts) (some rd1), none⟩],
      ⟨.FlattenFields true (appearanceOf fonts) none, some e⟩, by
      simp [h, stageEvents, Event.kind, Call.kind, Kind.isStage, headEvents, fontLoads,
        styleEvents]⟩
  · refine ⟨[⟨.LoadFromJSONFile j, none⟩, ⟨.Open i, none⟩, ⟨.NewPdfReader f, none⟩,
        ⟨.FillWithAppearance fd (appearanceOf fonts) (some rd1), none⟩,
        ⟨.FlattenFields true (appearanceOf fonts) (some rd2), none⟩] ++ pre.map addOk,
      ⟨.AddPage p, some e⟩, ?_, ?_, ?_, ?_⟩
    · simp only [h, stageEvents_append, stageEvents_addOk]
      simp [stageEvents, Event.kind, Call.kind, Kind.isStage, headEvents, fontLoads,
        styleEvents, loopHead]
    · intro x hx
      simp only [List.mem_append] at hx
      rcases hx with hx | hx
      · simp at hx
        rcases hx with rfl | rfl | rfl | rfl | rfl <;> rfl
      · exact err_addOk pre x hx
    · simp [h]
    · simp
  · refine ⟨[⟨.LoadFromJSONFile j, none⟩, ⟨.Open i, none⟩, ⟨.NewPdfReader f, none⟩,
        ⟨.FillWithAppearance fd (appearanceOf fonts) (some rd1), none⟩,
        ⟨.FlattenFields true (appearanceOf fonts) (some rd2), none⟩] ++ rd2.PageList.map addOk,
      ⟨.Create o, some e⟩, ?_, ?_, ?_, ?_⟩
    · simp only [h, stageEvents_append, stageEvents_addOk]
      simp [stageEvents, Event.kind, Call.kind, Kind.isStage, headEvents, fontLoads,
        styleEvents, loopHead]
    · intro x hx
      simp only [List.mem_append] at hx
      rcases hx with hx | hx
      · simp at hx
        rcases hx with rfl | rfl | rfl | rfl | rfl <;> rfl
      · exact err_addOk _ x hx
    · simp [h]
    · simp
  · refine ⟨[⟨.LoadFromJSONFile j, none⟩, ⟨.Open i, none⟩, ⟨.NewPdfReader f, none⟩,
        ⟨.FillWithAppearance fd (appearanceOf fonts) (some rd1), none⟩,
        ⟨.FlattenFields true (appearanceOf fonts) (some rd2), none⟩] ++ rd2.PageList.map addOk
        ++ [⟨.Create o, none⟩],
      ⟨.Write ⟨none, rd2.PageList⟩ fout, env.Write ⟨none, rd2.PageList⟩ fout⟩, ?_, ?_, ?_, ?_⟩
    · simp only [h, stageEvents_append, stageEvents_addOk]
      simp [stageEvents, Event.kind, Call.kind, Kind.isStage, headEvents, fontLoads,
        styleEvents, loopHead]
    · intro x hx
      simp only [List.mem_append] at hx
      rcases hx with (hx | hx) | hx
      · simp at hx
        rcases hx with rfl | rfl | rfl | rfl | rfl <;> rfl
      · exact err_addOk _ x hx
      · simp at hx
        subst hx
        rfl
    · simp [h]
    · intro _
      refine ⟨rd2.PageList.length, ?_⟩
      simp only [List.map_append, sig_addOk]
      simp_all [Event.sig, Event.kind, Call.kind, fullStages]

theorem fullStages_ok (n : Nat) : ∀ x ∈ fullStages n, x.2 = none := by
  intro x hx
  simp only [fullStages, List.mem_append, List.mem_replicate] at hx
  rcases hx with (hx | hx) | hx
  · simp at hx
    rcases hx with rfl | rfl | rfl | rfl | rfl <;> rfl
  · rw [hx.2]
  · simp at hx
    rcases hx with rfl | rfl <;> rfl

theorem stage_kinds_initial (env : Env) (i j o : String) :
    ∃ n, (stageEvents (fillFields env i j o).trace).map Event.kind
      <+: (fullStages n).map Prod.fst := by
  rw [stageEvents_kinds]
  rcases fillFields_cases env i j o with
    ⟨e, -, h⟩ | ⟨fd, -, ⟨e, -, h⟩ | ⟨f, -, ⟨e, -, h⟩ | ⟨rd, -, ⟨e, he, h⟩ | ⟨c, -,
      ⟨hn, h⟩ | ⟨dn, -, ⟨hn, h⟩ | ⟨rn, -, fonts, -, ⟨e, h⟩ | ⟨rd1, -, ⟨e, h⟩ | ⟨rd2, -,
        ⟨pre, p, post, e, -, h⟩ | ⟨e, -, h⟩ | ⟨fout, -, h⟩⟩⟩⟩⟩⟩⟩⟩⟩
  all_goals rw [h]
  all_goals simp [headEvents, loopHead, fontLoads, styleEvents, kinds_append, kinds_cons,
    kinds_nil, kinds_addOk, Call.kind, Kind.isStage, List.filter_cons, List.filter_append]
  · exact ⟨0, [.Open, .NewPdfReader, .FillWithAppearance, .FlattenFields, .Create, .Write], rfl⟩
  · exact ⟨0, [.NewPdfReader, .FillWithAppearance, .FlattenFields, .Create, .Write], rfl⟩
  · exact ⟨0, [.FillWithAppearance, .FlattenFields, .Create, .Write], rfl⟩
  · exact ⟨0, [.FillWithAppearance, .FlattenFields, .Create, .Write], rfl⟩
  · exact ⟨0, [.FillWithAppearance, .FlattenFields, .Create, .Write], rfl⟩
  · exact ⟨0, [.FillWithAppearance, .FlattenFields, .Create, .Write], rfl⟩
  · exact ⟨0, [.FlattenFields, .Create, .Write], rfl⟩
  · exact ⟨0, [.Create, .Write], rfl⟩
  · exact ⟨pre.length + 1, [.Create, .Write], by simp [fullStages, List.replicate_succ']⟩
  · exact ⟨rd2.PageList.length, [.Write], by simp [fullStages]⟩
  · exact ⟨rd2.PageList.length, [], by simp [fullStages]⟩

/-- C3. Fail-fast propagation: when the three fonts load, `fillFields` returns the
error of the first failing stage call among `LoadFromJSONFile`, `os.Open`,
`NewPdfReader`, `FillWithAppearance`, `FlattenFields`, `AddPage`, `os.Create` and
`Write`; it returns nil exactly when all of these stages were invoked, in that
order, and succeeded; no stage call follows a failed one; and the stage calls of
every run are made in that order. -/
theorem fillFields_fail_fast (env : Env) (i j o : String) (d r c : PdfFont)
    (h1 : env.NewStandard14Font HelveticaObliqueName = .ok d)
    (h2 : env.NewPdfFontFromTTFFile "./DoHyeon-Regular.ttf" = .ok r)
    (h3 : env.NewCompositePdfFontFromTTFFile "./rounded-mplus-1p-regular.ttf" = .ok c) :
    (fillFields env i j o).outcome = .returned (firstError (fillFields env i j o).trace) ∧
    ((fillFields env i j o).outcome = .returned none ↔
      ∃ n, (stageEvents (fillFields env i j o).trace).map Event.sig = fullStages n) ∧
    (∀ pre ev post, stageEvents (fillFields env i j o).trace = pre ++ ev :: post →
      ev.err ≠ none → post = []) ∧
    (∃ n, (stageEvents (fillFields env i j o).trace).map Event.kind
      <+: (fullStages n).map Prod.fst) := by
  obtain ⟨oks, l, ht, hok, hout, hfull⟩ := fillFields_stage_shape env i j o d r c h1 h2 h3
  refine ⟨?_, ⟨?_, ?_⟩, ?_, stage_kinds_initial env i j o⟩
  · rw [hout, firstError_shape oks l _ ht hok]
  · intro hnil
    rw [hout] at hnil
    rw [ht]
    exact hfull (by simpa using hnil)
  · rintro ⟨n, hn⟩
    rw [hout]
    have hl : l.sig ∈ fullStages n := by
      rw [← hn, ht]
      simp
    have := fullStages_ok n _ hl
    simp only [Event.sig] at this
    rw [this]
  · rw [ht]
    exact fail_is_last oks l hok

theorem fillFields_fail_fast_witness :
    (envBadPage.NewStandard14Font HelveticaObliqueName
        = .ok ⟨"Helvetica-Oblique", "Helvetica-Oblique"⟩ ∧
      envBadPage.NewPdfFontFromTTFFile "./DoHyeon-Regular.ttf"
        = .ok ⟨"./DoHyeon-Regular.ttf", "DoHyeon"⟩ ∧
      envBadPage.NewCompositePdfFontFromTTFFile "./rounded-mplus-1p-regular.ttf"
        = .ok ⟨"./rounded-mplus-1p-regular.ttf", "MPlus"⟩) ∧
    (fillFields envBadPage "sample_form.pdf" "formdata.json" "output.pdf").outcome
      = .returned (firstError
          (fillFields envBadPage "sample_form.pdf" "formdata.json" "output.pdf").trace) :=
  ⟨⟨rfl, rfl, rfl⟩, (fillFields_fail_fast envBadPage "sample_form.pdf" "formdata.json"
    "output.pdf" _ _ _ rfl rfl rfl).1⟩

/-! ## Font resolution -/

/-- C4, the code at the failing input: in the run of the sample environment the
appearance handed to `FillWithAppearance` resolves the field `address5[city]`,
which is not the email field `email4`, to the composite font `cjkFont` of
lines 113-117, and that font is not `defaultFontReplacement`; so it is not the
case that every field other than `email4` resolves to `defaultFontReplacement`,
as the comment of lines 88-89 says. -/
theorem address_field_uses_cjk_font :
    (∃ fd fa after,
      (⟨.FillWithAppearance fd fa after, none⟩ : Event)
        ∈ (fillFields envOK "sample_form.pdf" "formdata.json" "output.pdf").trace ∧
      fa.resolve "address5[city]"
        = some ⟨some ⟨"./rounded-mplus-1p-regular.ttf", "MPlus"⟩, "MPlus", 0⟩) ∧
    "address5[city]" ≠ "email4" ∧
    envOK.defaultFont = some ⟨"Helvetica-Oblique", "Helvetica-Oblique"⟩ ∧
    envOK.NewCompositePdfFontFromTTFFile "./rounded-mplus-1p-regular.ttf"
      = .ok ⟨"./rounded-mplus-1p-regular.ttf", "MPlus"⟩ ∧
    (some ⟨"./rounded-mplus-1p-regular.ttf", "MPlus"⟩ : Option PdfFont) ≠ envOK.defaultFont ∧
    ¬ (∀ fd fa after err name,
        (⟨.FillWithAppearance fd fa after, err⟩ : Event)
          ∈ (fillFields envOK "sample_form.pdf" "formdata.json" "output.pdf").trace →
        name ≠ "email4" →
        ∃ af, fa.resolve name = some af ∧ af.Font = envOK.defaultFont) := by
  have hmem := envOK_fill_event
  have h3 := (resolve_fontStyle envOK.defaultFont envOK.replacementFont
    ⟨"./rounded-mplus-1p-regular.ttf", "MPlus"⟩ "Helvetica-Oblique" "DoHyeon").2.2.2.1
  refine ⟨⟨_, _, _, hmem, h3⟩, by decide, rfl, rfl, by decide, ?_⟩
  intro hall
  obtain ⟨af, h1, h2⟩ := hall _ _ _ _ "address5[city]" hmem (by decide)
  rw [h3] at h1
  cases h1
  revert h2
  decide

/-- The part of the comment of lines 88-89 the code keeps: in the appearance
`fillFields` hands to `FillWithAppearance`, `email4` resolves to
`fontReplacement` and every field name other than `email4` and the five
`address5[...]` keys of `FieldFallbacks` resolves to `defaultFontReplacement`. -/
theorem email_and_unlisted_fields (env : Env) (i j o : String) (fd : FieldData)
    (fa : FieldAppearance) (after : Option PdfReader) (err : Option Err)
    (h : ⟨.FillWithAppearance fd fa after, err⟩ ∈ (fillFields env i j o).trace) :
    (∃ af, fa.resolve "email4" = some af ∧ af.Font = env.replacementFont) ∧
    ∀ name, name ≠ "email4" →
      name ∉ ["address5[addr_line1]", "address5[addr_line2]", "address5[city]",
        "address5[state]", "address5[postal]"] →
      ∃ af, fa.resolve name = some af ∧ af.Font = env.defaultFont := by
  obtain ⟨-, f, rd, c, dn, rn, -, -, hc, hdn, hrn, rfl, -⟩ := fill_event env i j o fd fa after err h
  refine ⟨⟨_, (resolve_fontStyle env.defaultFont env.replacementFont c dn rn).1, rfl⟩, ?_⟩
  intro name h1 h2
  refine ⟨_, resolve_fontStyle_other _ _ c dn rn name ?_, rfl⟩
  simp only [List.mem_cons, List.mem_singleton, List.not_mem_nil, or_false, not_or] at h2 ⊢
  exact ⟨h1, h2⟩

/-- C5. In the appearance `fillFields` hands to `FillWithAppearance`, the
`FieldFallbacks` entries override `Fallback` for their named field only:
`email4` resolves to `fontReplacement`, each of the five `address5[...]` keys
resolves to `cjkFont`, every other field name resolves to the `Fallback`
`defaultFontReplacement`, and every resolved entry has `Size` 0. -/
theorem field_fallbacks_override (env : Env) (i j o : String) (fd : FieldData)
    (fa : FieldAppearance) (after : Option PdfReader) (err : Option Err)
    (h : ⟨.FillWithAppearance fd fa after, err⟩ ∈ (fillFields env i j o).trace) :
    ∃ c dn rn,
      env.NewCompositePdfFontFromTTFFile "./rounded-mplus-1p-regular.ttf" = .ok c ∧
      env.fontName env.defaultFont = some dn ∧ env.fontName env.replacementFont = some rn ∧
      fa.resolve "email4" = some ⟨env.replacementFont, rn, 0⟩ ∧
      fa.resolve "address5[addr_line1]" = some ⟨some c, c.fontName, 0⟩ ∧
      fa.resolve "address5[addr_line2]" = some ⟨some c, c.fontName, 0⟩ ∧
      fa.resolve "address5[city]" = some ⟨some c, c.fontName, 0⟩ ∧
      fa.resolve "address5[state]" = some ⟨some c, c.fontName, 0⟩ ∧
      fa.resolve "address5[postal]" = some ⟨some c, c.fontName, 0⟩ ∧
      (∀ name, name ∉ ["email4", "address5[addr_line1]", "address5[addr_line2]",
          "address5[city]", "address5[state]", "address5[postal]"] →
        fa.resolve name = some ⟨env.defaultFont, dn, 0⟩) ∧
      (∀ name, ∃ af, fa.resolve name = some af ∧ af.Size = 0) := by
  obtain ⟨-, f, rd, c, dn, rn, -, -, hc, hdn, hrn, rfl, -⟩ := fill_event env i j o fd fa after err h
  obtain ⟨r1, r2, r3, r4, r5, r6⟩ := resolve_fontStyle env.defaultFont env.replacementFont c dn rn
  exact ⟨c, dn, rn, hc, hdn, hrn, r1, r2, r3, r4, r5, r6,
    fun name hn => resolve_fontStyle_other _ _ c dn rn name hn,
    fun name => resolve_fontStyle_size _ _ c dn rn name⟩

theorem field_fallbacks_override_witness :
    ∃ fd fa after,
      (⟨.FillWithAppearance fd fa after, none⟩ : Event)
        ∈ (fillFields envOK "sample_form.pdf" "formdata.json" "output.pdf").trace ∧
      fa.resolve "email4" = some ⟨some ⟨"./DoHyeon-Regular.ttf", "DoHyeon"⟩, "DoHyeon", 0⟩ ∧
      fa.resolve "name1" = some ⟨some ⟨"Helvetica-Oblique", "Helvetica-Oblique"⟩,
        "Helvetica-Oblique", 0⟩ := by
  have hmem := envOK_fill_event
  obtain ⟨c, dn, rn, hc, hdn, hrn, h1, -, -, -, -, -, h7, -⟩ :=
    field_fallbacks_override envOK _ _ _ _ _ _ _ hmem
  cases hc
  cases hdn
  cases hrn
  exact ⟨_, _, _, hmem, h1, h7 "name1" (by decide)⟩

/-! ## Order of the stages -/

theorem pipeline_initial (env : Env) (i j o : String) :
    ∃ n, pipeline (fillFields env i j o).trace <+: fullPipeline n := by
  rcases fillFields_cases env i j o with
    ⟨e, -, h⟩ | ⟨fd, -, ⟨e, -, h⟩ | ⟨f, -, ⟨e, -, h⟩ | ⟨rd, -, ⟨e, he, h⟩ | ⟨c, -,
      ⟨hn, h⟩ | ⟨dn, -, ⟨hn, h⟩ | ⟨rn, -, fonts, -, ⟨e, h⟩ | ⟨rd1, -, ⟨e, h⟩ | ⟨rd2, -,
        ⟨pre, p, post, e, -, h⟩ | ⟨e, -, h⟩ | ⟨fout, -, h⟩⟩⟩⟩⟩⟩⟩⟩⟩
  all_goals rw [h]
  all_goals simp [pipeline, headEvents, loopHead, fontLoads, styleEvents, kinds_append, kinds_cons,
    kinds_nil, kinds_addOk, Call.kind, Kind.isPipeline, List.filter_cons, List.filter_append]
  · exact ⟨0, [.FillWithAppearance, .FlattenFields, .SubsetRegistered, .Write], rfl⟩
  · exact ⟨0, [.FillWithAppearance, .FlattenFields, .SubsetRegistered, .Write], rfl⟩
  · exact ⟨0, [.FillWithAppearance, .FlattenFields, .SubsetRegistered, .Write], rfl⟩
  · exact ⟨0, [.FillWithAppearance, .FlattenFields, .SubsetRegistered, .Write], rfl⟩
  · exact ⟨0, [.FillWithAppearance, .FlattenFields, .SubsetRegistered, .Write], rfl⟩
  · exact ⟨0, [.FillWithAppearance, .FlattenFields, .SubsetRegistered, .Write], rfl⟩
  · exact ⟨0, [.FlattenFields, .SubsetRegistered, .Write], rfl⟩
  · exact ⟨0, [.SubsetRegistered, .Write], rfl⟩
  · exact ⟨pre.length + 1, [.SubsetRegistered, .Write], by
      simp [fullPipeline, List.replicate_succ']⟩
  · exact ⟨rd2.PageList.length, [.SubsetRegistered, .Write], by simp [fullPipeline]⟩
  · exact ⟨rd2.PageList.length, [], by simp [fullPipeline]⟩

theorem fullPipeline_pairwise (n : Nat) :
    (fullPipeline n).Pairwise
      (fun a b => a.position < b.position ∨ (a = .AddPage ∧ b = .AddPage)) := by
  simp only [fullPipeline, List.pairwise_append, List.pairwise_cons, List.mem_append,
    List.mem_cons, List.mem_replicate, List.pairwise_replicate, List.not_mem_nil,
    List.Pairwise.nil, or_false, false_or, and_true, true_and, false_implies, implies_true]
  and_intros
  all_goals first
    | (rintro a (rfl | rfl | rfl) <;> simp [Kind.position])
    | (rintro a ((rfl | rfl | rfl) | ⟨-, rfl⟩) b (rfl | rfl) <;> simp [Kind.position])
    | simp

theorem fullPipeline_count (n : Nat) (k : Kind)
    (hk : k ∈ [Kind.LoadFromJSONFile, .FillWithAppearance, .FlattenFields, .SubsetRegistered,
      .Write]) : (fullPipeline n).count k = 1 := by
  simp only [List.mem_cons, List.mem_singleton, List.not_mem_nil, or_false] at hk
  rcases hk with rfl | rfl | rfl | rfl | rfl <;>
    simp [fullPipeline, List.count_cons, List.count_replicate]

/-- C6. Data flows strictly forward: the pipeline stages every run invokes are
an initial segment of `LoadFromJSONFile`, `FillWithAppearance`, `FlattenFields`,
`AddPage` for each page, `SubsetRegistered`, `Write`; of any two stage calls the
earlier one has the earlier place in the pipeline, unless both are `AddPage`;
and `LoadFromJSONFile`, `FillWithAppearance`, `FlattenFields`,
`SubsetRegistered` and `Write` are each invoked at most once. -/
theorem stages_in_pipeline_order (env : Env) (i j o : String) :
    (∃ n, pipeline (fillFields env i j o).trace <+: fullPipeline n) ∧
    (pipeline (fillFields env i j o).trace).Pairwise
      (fun a b => a.position < b.position ∨ (a = .AddPage ∧ b = .AddPage)) ∧
    (∀ k ∈ [Kind.LoadFromJSONFile, .FillWithAppearance, .FlattenFields, .SubsetRegistered,
      .Write], (kinds (fillFields env i j o).trace).count k ≤ 1) := by
  obtain ⟨n, hn⟩ := pipeline_initial env i j o
  refine ⟨⟨n, hn⟩, (fullPipeline_pairwise n).sublist hn.sublist, ?_⟩
  intro k hk
  have h1 : (pipeline (fillFields env i j o).trace).count k ≤ (fullPipeline n).count k :=
    hn.sublist.count_le k
  rw [fullPipeline_count n k hk] at h1
  have h2 : (pipeline (fillFields env i j o).trace).count k
      = (kinds (fillFields env i j o).trace).count k := by
    unfold pipeline
    apply List.count_filter
    simp only [List.mem_cons, List.mem_singleton, List.not_mem_nil, or_false] at hk
    rcases hk with rfl | rfl | rfl | rfl | rfl <;> rfl
  omega

/-! ## The outcome of `main` -/

theorem error_ne_success (e : String) :
    "Error: " ++ e ++ "\n" ≠ "Success, output written to output.pdf\n" := by
  intro h
  have h2 := congrArg (fun s => s.data.head?) h
  simp only [String.data_append] at h2
  simp at h2

/-- No run of `fillFields` prints or calls `os.Exit` directly. -/
theorem fillFields_no_print (env : Env) (i j o : String) :
    Kind.Printf ∉ kinds (fillFields env i j o).trace ∧
    Kind.Exit ∉ kinds (fillFields env i j o).trace := by
  rcases fillFields_cases env i j o with
    ⟨e, -, h⟩ | ⟨fd, -, ⟨e, -, h⟩ | ⟨f, -, ⟨e, -, h⟩ | ⟨rd, -, ⟨e, he, h⟩ | ⟨c, -,
      ⟨hn, h⟩ | ⟨dn, -, ⟨hn, h⟩ | ⟨rn, -, fonts, -, ⟨e, h⟩ | ⟨rd1, -, ⟨e, h⟩ | ⟨rd2, -,
        ⟨pre, p, post, e, -, h⟩ | ⟨e, -, h⟩ | ⟨fout, -, h⟩⟩⟩⟩⟩⟩⟩⟩⟩
  all_goals rw [h]
  all_goals simp [headEvents, loopHead, fontLoads, styleEvents, kinds_append, kinds_cons,
    kinds_nil, kinds_addOk, Call.kind]

/-- C7. The user-visible outcome of `main`: when `fillFields` returns an error
`e`, `main` prints `Error: e`, calls `os.Exit(1)`, ends with status 1 and never
prints the success message; when `fillFields` returns nil, `main` prints
`Success, output written to output.pdf`, returns normally and never calls
`os.Exit`. -/
theorem main_outcome (env : Env) :
    (∀ e, (fillFields env "sample_form.pdf" "formdata.json" "output.pdf").outcome
        = .returned (some e) →
      main env = ⟨(fillFields env "sample_form.pdf" "formdata.json" "output.pdf").trace ++
          [⟨.Printf ("Error: " ++ e ++ "\n"), none⟩, ⟨.Exit 1, none⟩], .exited 1⟩ ∧
      ∀ ev ∈ (main env).trace, ev.call ≠ .Printf "Success, output written to output.pdf\n") ∧
    ((fillFields env "sample_form.pdf" "formdata.json" "output.pdf").outcome = .returned none →
      main env = ⟨(fillFields env "sample_form.pdf" "formdata.json" "output.pdf").trace ++
          [⟨.Printf "Success, output written to output.pdf\n", none⟩], .returned none⟩ ∧
      ∀ ev ∈ (main env).trace, ev.kind ≠ .Exit) := by
  have hnp := fillFields_no_print env "sample_form.pdf" "formdata.json" "output.pdf"
  constructor
  · intro e he
    have hm : main env = ⟨(fillFields env "sample_form.pdf" "formdata.json" "output.pdf").trace
        ++ [⟨.Printf ("Error: " ++ e ++ "\n"), none⟩, ⟨.Exit 1, none⟩], .exited 1⟩ := by
      simp [main, he]
    refine ⟨hm, ?_⟩
    rw [hm]
    intro ev hev
    simp only [List.mem_append, List.mem_cons, List.mem_singleton, List.not_mem_nil,
      or_false] at hev
    rcases hev with hev | rfl | rfl
    · intro hc
      exact hnp.1 (by simpa [Event.kind, hc, Call.kind] using kind_mem_kinds _ ev hev)
    · intro hc
      exact error_ne_success e (Call.Printf.inj hc)
    · simp
  · intro he
    have hm : main env = ⟨(fillFields env "sample_form.pdf" "formdata.json" "output.pdf").trace
        ++ [⟨.Printf "Success, output written to output.pdf\n", none⟩], .returned none⟩ := by
      simp [main, he]
    refine ⟨hm, ?_⟩
    rw [hm]
    intro ev hev
    simp only [List.mem_append, List.mem_singleton] at hev
    rcases hev with hev | rfl
    · exact fun hc => hnp.2 (hc ▸ kind_mem_kinds _ ev hev)
    · simp [Event.kind, Call.kind]

theorem main_outcome_witness :
    (fillFields envBadPage "sample_form.pdf" "formdata.json" "output.pdf").outcome
      = .returned (some "bad page") ∧
    (main envBadPage).outcome = .exited 1 ∧
    ⟨.Printf "Error: bad page\n", none⟩ ∈ (main envBadPage).trace := by
  have h := ((main_outcome envBadPage).1 "bad page" rfl).1
  refine ⟨rfl, ?_, ?_⟩
  · rw [h]
  · rw [h]
    simp

/-! ## Flattening and filling -/

theorem flattenPage_no_widgets (p : PdfPage) : ∀ a ∈ (flattenPage p).annots, a.isWidget = false := by
  intro a ha
  simp only [flattenPage, List.mem_filter] at ha
  simpa using ha.2

theorem flattenFields_no_widgets (rd : PdfReader) (flag : Bool) (fa : FieldAppearance) :
    (rd.FlattenFields flag fa).AcroForm = none ∧
    ∀ p ∈ (rd.FlattenFields flag fa).PageList, ∀ a ∈ p.annots, a.isWidget = false := by
  refine ⟨rfl, ?_⟩
  intro p hp
  simp only [PdfReader.FlattenFields, List.mem_map] at hp
  obtain ⟨q, -, rfl⟩ := hp
  exact flattenPage_no_widgets q

/-- C8. The output PDF form is flattened: in every run in which `fillFields`
returns nil, `FlattenFields` was called with `true` and succeeded before any
page was added; the only `SetForms` call of the run is `SetForms(nil)`; the
writer handed to `Write` has no form and holds exactly the pages of the
flattened reader, each added once after flattening; the flattened reader has no
form and none of these pages has a widget annotation. -/
theorem output_is_flattened (env : Env) (i j o : String)
    (h : (fillFields env i j o).outcome = .returned none) :
    ∃ fa rd2 fout pre mid post,
      (fillFields env i j o).trace
        = pre ++ ⟨.FlattenFields true fa (some rd2), none⟩ :: mid
          ++ ⟨.Write ⟨none, rd2.PageList⟩ fout, none⟩ :: post ∧
      Kind.AddPage ∉ kinds pre ∧
      addPageEvents mid = rd2.PageList.map addOk ∧
      Kind.AddPage ∉ kinds post ∧
      callsOfKind .SetForms (fillFields env i j o).trace = [.SetForms none] ∧
      rd2.AcroForm = none ∧
      ∀ p ∈ rd2.PageList, ∀ a ∈ p.annots, a.isWidget = false := by
  rcases fillFields_cases env i j o with
    ⟨e, -, h'⟩ | ⟨fd, -, ⟨e, -, h'⟩ | ⟨f, -, ⟨e, -, h'⟩ | ⟨rd, -, ⟨e, he, h'⟩ | ⟨c, -,
      ⟨hn, h'⟩ | ⟨dn, -, ⟨hn, h'⟩ | ⟨rn, -, fonts, -, ⟨e, h'⟩ | ⟨rd1, -, ⟨e, h'⟩ | ⟨rd2, hrd2,
        ⟨pre, p, post, e, -, h'⟩ | ⟨e, -, h'⟩ | ⟨fout, -, h'⟩⟩⟩⟩⟩⟩⟩⟩⟩
  all_goals rw [h'] at h
  all_goals simp at h
  rw [h']
  refine ⟨appearanceOf fonts, rd2, fout,
    headEvents env i j f c fonts ++ [⟨.FillWithAppearance fd (appearanceOf fonts) (some rd1), none⟩],
    [⟨.NewPdfWriter, none⟩, ⟨.SetForms none, env.SetForms none⟩] ++ rd2.PageList.map addOk
      ++ [⟨.Create o, none⟩, ⟨.SubsetRegistered c, env.SubsetRegistered c⟩],
    [⟨.Close fout, env.Close fout⟩, ⟨.Close f, env.Close f⟩], ?_, ?_, ?_, ?_, ?_, ?_⟩
  · simp [loopHead, h]
  · simp [headEvents, fontLoads, styleEvents, kinds_append, kinds_cons, kinds_nil, Call.kind]
  · simp [addPageEvents_append, addPageEvents_cons, addPageEvents_addOk, Call.kind]
    rfl
  · simp [kinds_cons, kinds_nil, Call.kind]
  · simp [headEvents, loopHead, fontLoads, styleEvents, callsOfKind_append, callsOfKind_cons,
      callsOfKind_addOk, callsOfKind_nil, Call.kind]
  · rw [hrd2]
    exact flattenFields_no_widgets rd1 true (appearanceOf fonts)

theorem output_is_flattened_witness :
    (fillFields envOK "sample_form.pdf" "formdata.json" "output.pdf").outcome = .returned none ∧
    callsOfKind .SetForms (fillFields envOK "sample_form.pdf" "formdata.json" "output.pdf").trace
      = [.SetForms none] := by
  obtain ⟨_, _, _, _, _, _, -, -, -, -, h, -⟩ :=
    output_is_flattened envOK "sample_form.pdf" "formdata.json" "output.pdf" rfl
  exact ⟨rfl, h⟩

theorem fillValue_name (fd : FieldData) (f : PdfField) : (fillValue fd f).name = f.name := by
  unfold fillValue
  split <;> rfl

theorem fillValue_value (fd : FieldData) (f : PdfField) (v : String)
    (h : fd.lookup f.name = some v) : (fillValue fd f).value = v := by
  unfold fillValue
  rw [h]

/-- C9. After the fill step of a run, made with exactly the data
`LoadFromJSONFile` returned, the form has the same fields as before, and every
field whose name has a value in the field data has that value. -/
theorem fill_sets_values (env : Env) (i j o : String) (fd : FieldData)
    (fa : FieldAppearance) (rd1 : PdfReader) (err : Option Err)
    (h : ⟨.FillWithAppearance fd fa (some rd1), err⟩ ∈ (fillFields env i j o).trace) :
    env.LoadFromJSONFile j = .ok fd ∧
    ∃ f rd, env.Open i = .ok f ∧ env.NewPdfReader f = .ok rd ∧
      ∀ form, rd.AcroForm = some form →
        ∃ form1, rd1.AcroForm = some form1 ∧
          form1.map (fun x => x.name) = form.map (fun x => x.name) ∧
          ∀ x ∈ form1, ∀ v, fd.lookup x.name = some v → x.value = v := by
  obtain ⟨hfd, f, rd, c, dn, rn, hf, hrd, -, -, -, -, hafter⟩ :=
    fill_event env i j o fd fa (some rd1) err h
  refine ⟨hfd, f, rd, hf, hrd, ?_⟩
  intro form hform
  rcases hafter with hafter | hafter
  · cases hafter
  · cases hafter
    refine ⟨form.map (fillValue fd), by simp [PdfReader.FillWithAppearance, hform], ?_, ?_⟩
    · simp [List.map_map, Function.comp_def, fillValue_name]
    · intro x hx v hv
      simp only [List.mem_map] at hx
      obtain ⟨y, -, rfl⟩ := hx
      rw [fillValue_name] at hv
      exact fillValue_value fd y v hv

theorem fill_sets_values_witness :
    ∃ fa rd1 form1,
      (⟨.FillWithAppearance [("email4", "a@b.com"), ("address5[city]", "c")] fa (some rd1),
        none⟩ : Event)
        ∈ (fillFields envOK "sample_form.pdf" "formdata.json" "output.pdf").trace ∧
      rd1.AcroForm = some form1 ∧
      ∀ x ∈ form1, ∀ v,
        List.lookup x.name [("email4", "a@b.com"), ("address5[city]", "c")] = some v →
        x.value = v := by
  have hmem := envOK_fill_event
  obtain ⟨-, f, rd, hf, hrd, hform⟩ := fill_sets_values envOK _ _ _ _ _ _ _ hmem
  cases hf
  cases hrd
  obtain ⟨form1, h1, -, h3⟩ := hform _ rfl
  exact ⟨_, _, form1, hmem, h1, h3⟩

/-! ## The output file -/

theorem create_only_after_success (env : Env) (i j o : String)
    (h : Kind.Create ∈ kinds (fillFields env i j o).trace) :
    failedBeforeCreate (fillFields env i j o).trace = [] := by
  rcases fillFields_cases env i j o with
    ⟨e, -, h'⟩ | ⟨fd, -, ⟨e, -, h'⟩ | ⟨f, -, ⟨e, -, h'⟩ | ⟨rd, -, ⟨e, he, h'⟩ | ⟨c, -,
      ⟨hn, h'⟩ | ⟨dn, -, ⟨hn, h'⟩ | ⟨rn, -, fonts, -, ⟨e, h'⟩ | ⟨rd1, -, ⟨e, h'⟩ | ⟨rd2, -,
        ⟨pre, p, post, e, -, h'⟩ | ⟨e, -, h'⟩ | ⟨fout, -, h'⟩⟩⟩⟩⟩⟩⟩⟩⟩
  all_goals rw [h'] at h ⊢
  all_goals simp [headEvents, loopHead, fontLoads, styleEvents, kinds_append, kinds_cons,
    kinds_nil, kinds_addOk, Call.kind] at h
  all_goals simp [headEvents, loopHead, fontLoads, styleEvents, failedBeforeCreate_append,
    failedBeforeCreate_cons, failedBeforeCreate_addOk, Call.kind, Kind.beforeCreate]
  all_goals rfl

/-- C10. The output file is touched only after everything before serialization
has succeeded: in a run in which a call of `LoadFromJSONFile`, `os.Open`,
`NewPdfReader`, `FillWithAppearance`, `FlattenFields` or `AddPage` fails,
`os.Create` is never called; and when `os.Create` is called, the `AddPage` calls
made before it are exactly one successful call for every page of the flattened
reader's `PageList`, in `PageList` order. -/
theorem create_after_pages (env : Env) (i j o : String) :
    (∀ ev ∈ (fillFields env i j o).trace, ev.kind.beforeCreate = true → ev.err ≠ none →
      Kind.Create ∉ kinds (fillFields env i j o).trace) ∧
    (∀ pre ev post, (fillFields env i j o).trace = pre ++ ev :: post → ev.kind = .Create →
      ev.call = .Create o ∧
      ∃ fa rd2, (⟨.FlattenFields true fa (some rd2), none⟩ : Event) ∈ pre ∧
        addPageEvents pre = rd2.PageList.map addOk) := by
  constructor
  · intro ev hev hk herr hc
    have h := create_only_after_success env i j o hc
    have : ev ∈ failedBeforeCreate (fillFields env i j o).trace := by
      simp only [failedBeforeCreate, List.mem_filter]
      refine ⟨hev, ?_⟩
      cases he : ev.err with
      | none => exact absurd he herr
      | some e => simp [hk]
    rw [h] at this
    cases this
  · intro pre0 ev post0 hsplit hev
    have hc : Kind.Create ∈ kinds (fillFields env i j o).trace := by
      rw [hsplit, ← hev]
      exact kind_mem_kinds _ ev (by simp)
    rcases fillFields_cases env i j o with
      ⟨e, -, h'⟩ | ⟨fd, -, ⟨e, -, h'⟩ | ⟨f, -, ⟨e, -, h'⟩ | ⟨rd, -, ⟨e, he, h'⟩ | ⟨c, -,
        ⟨hn, h'⟩ | ⟨dn, -, ⟨hn, h'⟩ | ⟨rn, -, fonts, -, ⟨e, h'⟩ | ⟨rd1, -, ⟨e, h'⟩ | ⟨rd2, -,
          ⟨pre, p, post, e, -, h'⟩ | ⟨e, -, h'⟩ | ⟨fout, -, h'⟩⟩⟩⟩⟩⟩⟩⟩⟩
    all_goals rw [h'] at hc hsplit
    all_goals simp [headEvents, loopHead, fontLoads, styleEvents, kinds_append, kinds_cons,
      kinds_nil, kinds_addOk, Call.kind] at hc
    · obtain ⟨rfl, rfl, rfl⟩ := split_unique Kind.Create
        (loopHead env i j f c fonts fd rd1 rd2 ++ List.map addOk rd2.PageList)
        [⟨.Close f, env.Close f⟩] ⟨.Create o, some e⟩
        (by simp [headEvents, loopHead, fontLoads, styleEvents, kinds_append, kinds_cons,
          kinds_nil, kinds_addOk, Call.kind])
        (by simp [kinds_cons, kinds_nil, Call.kind]) pre0 ev post0 hsplit hev
      refine ⟨rfl, appearanceOf fonts, rd2, by simp [loopHead], ?_⟩
      simp [headEvents, loopHead, fontLoads, styleEvents, addPageEvents_append,
        addPageEvents_cons, addPageEvents_addOk, Call.kind]
    · obtain ⟨rfl, rfl, rfl⟩ := split_unique Kind.Create
        (loopHead env i j f c fonts fd rd1 rd2 ++ List.map addOk rd2.PageList)
        [⟨.SubsetRegistered c, env.SubsetRegistered c⟩,
          ⟨.Write ⟨none, rd2.PageList⟩ fout, env.Write ⟨none, rd2.PageList⟩ fout⟩,
          ⟨.Close fout, env.Close fout⟩, ⟨.Close f, env.Close f⟩] ⟨.Create o, none⟩
        (by simp [headEvents, loopHead, fontLoads, styleEvents, kinds_append, kinds_cons,
          kinds_nil, kinds_addOk, Call.kind])
        (by simp [kinds_cons, kinds_nil, Call.kind]) pre0 ev post0 hsplit hev
      refine ⟨rfl, appearanceOf fonts, rd2, by simp [loopHead], ?_⟩
      simp [headEvents, loopHead, fontLoads, styleEvents, addPageEvents_append,
        addPageEvents_cons, addPageEvents_addOk, Call.kind]

theorem create_after_pages_witness :
    (⟨.AddPage ⟨[⟨"F1", "static"⟩, ⟨"MPlus", "c"⟩], []⟩, some "bad page"⟩ : Event)
      ∈ (fillFields envBadPage "sample_form.pdf" "formdata.json" "output.pdf").trace ∧
    Kind.Create ∉ kinds (fillFields envBadPage "sample_form.pdf" "formdata.json" "output.pdf").trace :=
  ⟨by decide, (create_after_pages envBadPage "sample_form.pdf" "formdata.json" "output.pdf").1
    ⟨.AddPage ⟨[⟨"F1", "static"⟩, ⟨"MPlus", "c"⟩], []⟩, some "bad page"⟩ (by decide) rfl
    (by decide)⟩

end FormFill

